import Mathlib

/-!
ILI9488 display driver: window protocol and canvas compositor.

A shallow embedding of the Go source `src/ili9488.go` and the properties its
specification states about it.

Conventions of the embedding.

* A Go `byte`/`uint8` is a `Fin 256`; a Go `uint32` is a `Fin 4294967296`.
  Arithmetic on them is done on the underlying naturals with the wrap-around
  written out.
* A Go `int` is an `Int`, and every `int` operation of the source is followed
  by `wrapInt`, the two's-complement wrap-around of a 64-bit target.
* A Go slice of bytes is a `List Byte`.  Indexing outside `0 ≤ i < len` is a
  run-time panic in Go; operations that can panic return `Option`, and `none`
  is the panic.
* The pins and the SPI port are external collaborators.  Every call the driver
  makes on them is recorded, in program order, as an `Event`; `time.Sleep` is
  recorded too.  A driver method is a function from the driver's fields to an
  `Effect`: its return value, the fields after the call, and the events it
  emitted.
* Colours and images are Go interfaces (`color.Color`, `image.Image`); a value
  of those is represented by what its methods return.
-/

namespace Lcd

/-! ## Machine integers -/

/-- Go `byte` / `uint8`. -/
abbrev Byte := Fin 256

/-- Go `uint32`. -/
abbrev U32 := Fin 4294967296

/-- Two's-complement wrap-around of a Go `int` on a 64-bit target. -/
def wrapInt (v : Int) : Int :=
  (v + 9223372036854775808) % 18446744073709551616 - 9223372036854775808

/-- Wrap-around of a Go `uint32`. -/
def wrapU32 (n : Nat) : Nat := n % 4294967296

/-- Conversion `byte(v)` of a Go `int`: the low eight bits. -/
def byteOfInt (v : Int) : Byte := Fin.ofNat (v % 256).toNat

/-- Conversion `uint8(v)` of a Go `uint32`: the low eight bits. -/
def byteOfU32 (n : Nat) : Byte := Fin.ofNat (n % 256)

/-! ## Constants -/

def LCD_H : Int := 480
def LCD_W : Int := 320
def SET_X_CMD : Byte := 0x2A
def SET_Y_CMD : Byte := 0x2B
def WARM_CMD : Byte := 0x2C
def SPI_CLOCK_HZ : Nat := 40000000

/-! ## The driver and its collaborators -/

/-- The four control lines held by the driver. -/
inductive Line
  | dc
  | rst
  | led
  | cs
  deriving DecidableEq, Repr

/-- One call on an external collaborator (`PIN`, `SPI`) or on `time.Sleep`. -/
inductive Event
  | setOutput (l : Line)
  | high (l : Line)
  | low (l : Line)
  | spiSpeed (hz : Nat)
  | setSpiMode0
  | spiTransmit (data : List Byte)
  | sleep (ms : Nat)
  deriving DecidableEq, Repr

/-- The fields of `struct ILI9488` that are data; the `spi`, `dc`, `rst`, `led`
and `cs` handles are the collaborators whose calls are recorded as events. -/
structure ILI9488 where
  width : Int
  height : Int
  xStart : Int
  yStart : Int
  deriving DecidableEq, Repr

/-- What a driver method does: the value it returns, the driver's fields
afterwards, and the events it emitted in order. -/
structure Effect (α : Type) where
  result : α
  state : ILI9488
  trace : List Event

/-- Sequential composition of two driver calls. -/
def Effect.andThen {α β : Type} (e : Effect α) (f : ILI9488 → Effect β) : Effect β :=
  let e2 := f e.state
  { result := e2.result, state := e2.state, trace := e.trace ++ e2.trace }

/-- Go `ExchangeData`: one chip-select framed bus transmission. -/
def ExchangeData (s : ILI9488) (isData : Bool) (data : List Byte) : Effect Unit :=
  { result := ()
    state := s
    trace := [Event.low Line.cs,
              if isData then Event.high Line.dc else Event.low Line.dc,
              Event.spiTransmit data,
              Event.high Line.cs] }

/-- Go `Command`. -/
def Command (s : ILI9488) (data : Byte) : Effect Unit :=
  ExchangeData s false [data]

/-- Go `SendData` (variadic in the source). -/
def SendData (s : ILI9488) (data : List Byte) : Effect Unit :=
  ExchangeData s true data

/-- Go `SetWindow`. -/
def SetWindow (s : ILI9488) (x0 y0 x1 y1 : Int) : Effect Unit :=
  (Command s SET_X_CMD).andThen fun s =>
  let x0 := wrapInt (x0 + s.xStart)
  let x1 := wrapInt (x1 + s.xStart)
  (SendData s [byteOfInt (x0 >>> (8 : Nat)), byteOfInt x0, byteOfInt (x1 >>> (8 : Nat)), byteOfInt x1]).andThen fun s =>
  (Command s SET_Y_CMD).andThen fun s =>
  let y0 := wrapInt (y0 + s.yStart)
  let y1 := wrapInt (y1 + s.yStart)
  (SendData s [byteOfInt (y0 >>> (8 : Nat)), byteOfInt y0, byteOfInt (y1 >>> (8 : Nat)), byteOfInt y1]).andThen fun s =>
  Command s WARM_CMD

/-- Go `FlushBitBuffer`. -/
def FlushBitBuffer (s : ILI9488) (x0 y0 x1 y1 : Int) (buffer : List Byte) : Effect Unit :=
  (SetWindow s x0 y0 x1 y1).andThen fun s =>
  ExchangeData s true buffer

/-- Go `image.Point`. -/
structure Point where
  X : Int
  Y : Int
  deriving DecidableEq, Repr

/-- Go `Size`. -/
def Size (s : ILI9488) : Effect Point :=
  { result := { X := s.width, Y := s.height }, state := s, trace := [] }

/-! ## Colours -/

/-- A value of Go's interface `color.Color`, seen through its only method used
here: the four `uint32` results of `RGBA()`. -/
structure Color where
  r : U32
  g : U32
  b : U32
  a : U32
  deriving DecidableEq, Repr

/-- Go standard library, `image/color`: `color.RGBA{R, G, B, A}.RGBA()`.
Each field `v` is widened by `v |= v << 8`. -/
def colorRGBA (R G B A : Byte) : Color :=
  { r := Fin.ofNat (R.val ||| wrapU32 (R.val <<< 8))
    g := Fin.ofNat (G.val ||| wrapU32 (G.val <<< 8))
    b := Fin.ofNat (B.val ||| wrapU32 (B.val <<< 8))
    a := Fin.ofNat (A.val ||| wrapU32 (A.val <<< 8)) }

/-- Go standard library, `image/color`: `color.NRGBA{R, G, B, A}.RGBA()`.
Each colour field `v` is widened by `v |= v << 8`, then `v *= A`, `v /= 0xff`;
the alpha field is only widened. -/
def colorNRGBA (R G B A : Byte) : Color :=
  { r := Fin.ofNat (wrapU32 ((R.val ||| wrapU32 (R.val <<< 8)) * A.val) / 0xff)
    g := Fin.ofNat (wrapU32 ((G.val ||| wrapU32 (G.val <<< 8)) * A.val) / 0xff)
    b := Fin.ofNat (wrapU32 ((B.val ||| wrapU32 (B.val <<< 8)) * A.val) / 0xff)
    a := Fin.ofNat (A.val ||| wrapU32 (A.val <<< 8)) }

/-- One channel of Go `computeAlpha`, on `uint32`:
`uint8((c1*alpha + uint32(c0)*f) / 255)`. -/
def blendChannel (c1 alpha f : Nat) (c0 : Byte) : Byte :=
  byteOfU32 (wrapU32 (wrapU32 (c1 * alpha) + wrapU32 (c0.val * f)) / 255)

/-- Go `computeAlpha`. -/
def computeAlpha (color : Color) (r0 g0 b0 : Byte) : Byte × Byte × Byte :=
  let r1 := color.r.val >>> 8
  let g1 := color.g.val >>> 8
  let b1 := color.b.val >>> 8
  let alpha := color.a.val >>> 8
  let f := wrapU32 (255 + 4294967296 - alpha)
  (blendChannel r1 alpha f r0, blendChannel g1 alpha f g0, blendChannel b1 alpha f b0)

/-! ## Canvas -/

/-- Go `struct Canvas`.  The `device` pointer is not a field here: the canvas
methods that use the device take the driver as an argument. -/
structure Canvas where
  X0 : Int
  Y0 : Int
  X1 : Int
  Y1 : Int
  Width : Int
  Height : Int
  Buffer : List Byte
  deriving DecidableEq, Repr

/-- Go `buf[i]` read: panics unless `0 ≤ i < len(buf)`. -/
def loadByte (buf : List Byte) (i : Int) : Option Byte :=
  if 0 ≤ i then buf[i.toNat]? else none

/-- Go `buf[i] = v`: panics unless `0 ≤ i < len(buf)`. -/
def storeByte (buf : List Byte) (i : Int) (v : Byte) : Option (List Byte) :=
  if 0 ≤ i ∧ i.toNat < buf.length then some (buf.set i.toNat v) else none

/-- Go `getBufferBeginIndex`. -/
def Canvas.getBufferBeginIndex (d : Canvas) (x y : Int) : Int :=
  wrapInt (wrapInt (wrapInt (y * d.Width) + x) * 3)

/-- Go `Canvas.SetRGB`. -/
def Canvas.SetRGB (d : Canvas) (x y : Int) (r g b : Byte) : Option Canvas :=
  let index := d.getBufferBeginIndex x y
  (storeByte d.Buffer index r).bind fun buf1 =>
  (storeByte buf1 (wrapInt (index + 1)) g).bind fun buf2 =>
  (storeByte buf2 (wrapInt (index + 2)) b).bind fun buf3 =>
  some { d with Buffer := buf3 }

/-- Go `Canvas.GetRGB`. -/
def Canvas.GetRGB (d : Canvas) (x y : Int) : Option (Byte × Byte × Byte) :=
  let index := d.getBufferBeginIndex x y
  (loadByte d.Buffer index).bind fun r =>
  (loadByte d.Buffer (wrapInt (index + 1))).bind fun g =>
  (loadByte d.Buffer (wrapInt (index + 2))).bind fun b =>
  some (r, g, b)

/-- Go `Canvas.SetColor`. -/
def Canvas.SetColor (d : Canvas) (x y : Int) (c : Color) : Option Canvas :=
  (d.GetRGB x y).bind fun bg =>
  let rgb := computeAlpha c bg.1 bg.2.1 bg.2.2
  d.SetRGB x y rgb.1 rgb.2.1 rgb.2.2

/-- The canvas invariant of the specification: the buffer holds three bytes
for each of the `Width × Height` pixels (the product taken over the integers). -/
def Canvas.Sized (d : Canvas) : Prop :=
  (d.Buffer.length : Int) = d.Width * d.Height * 3

/-- A Go slice has an `int` length. -/
def Canvas.LenIsInt (d : Canvas) : Prop :=
  (d.Buffer.length : Int) < 9223372036854775808

instance (d : Canvas) : Decidable d.Sized := by
  unfold Canvas.Sized; infer_instance

instance (d : Canvas) : Decidable d.LenIsInt := by
  unfold Canvas.LenIsInt; infer_instance

/-- Go `Canvas.GetColor`: the pixel as `color.NRGBA{R: r, G: g, B: b, A: 255}`. -/
def Canvas.GetColor (d : Canvas) (x y : Int) : Option Color :=
  (d.GetRGB x y).map fun p => colorNRGBA p.1 p.2.1 p.2.2 255

/-- Go `for i := lo; ...; i++ { body }` unrolled `n` times from `i`: the body
runs at `i`, `i+1`, ..., `i+n-1`, and a panic in the body ends the run. -/
def forCount {σ : Type} (body : Int → σ → Option σ) : Nat → Int → σ → Option σ
  | 0, _, s => some s
  | n + 1, i, s => (body i s).bind (forCount body n (i + 1))

/-- Go `for i := lo; i < hi; i++ { body }`, for a body that assigns neither `i`
nor `hi`: the body runs at `lo`, `lo+1`, ..., `hi-1`. -/
def forUpTo {σ : Type} (lo hi : Int) (body : Int → σ → Option σ) (s : σ) : Option σ :=
  forCount body (hi - lo).toNat lo s

/-- Go `image.Rectangle`. -/
structure Rectangle where
  Min : Point
  Max : Point
  deriving DecidableEq, Repr

/-- A value of Go's interface `image.Image`, seen through the two methods used
here, `Bounds()` and `At(x, y)`. -/
structure Image where
  Bounds : Rectangle
  At : Int → Int → Color

/-- Go `Canvas.DrawImage`.  The loop conditions `y < bounds.Max.Y && y < d.Height`
and `x < bounds.Max.X && x < d.Width` are the upper bounds
`min bounds.Max.Y d.Height` and `min bounds.Max.X d.Width`. -/
def Canvas.DrawImage (d : Canvas) (img : Image) : Option Canvas :=
  let bounds := img.Bounds
  forUpTo bounds.Min.Y (min bounds.Max.Y d.Height) (fun y d =>
    forUpTo bounds.Min.X (min bounds.Max.X d.Width) (fun x d =>
      d.SetColor x y (img.At x y)) d) d

/-- Go `Canvas.Clear`. -/
def Canvas.Clear (d : Canvas) : Option Canvas :=
  forUpTo 0 d.Width (fun x d =>
    forUpTo 0 d.Height (fun y d =>
      d.SetRGB x y 0 0 0) d) d

/-- Go `Canvas.FlushDirectly`, on the driver `s` the canvas points to.  The
result is the receiver after the call; the body assigns none of its fields. -/
def Canvas.FlushDirectly (d : Canvas) (s : ILI9488) (buffer : List Byte) : Effect Canvas :=
  let e := FlushBitBuffer s d.X0 d.Y0 d.X1 d.Y1 buffer
  { result := d, state := e.state, trace := e.trace }

/-- Go `Canvas.Flush`, on the driver `s` the canvas points to.  The result is
the receiver after the call. -/
def Canvas.Flush (d : Canvas) (s : ILI9488) : Effect Canvas :=
  d.FlushDirectly s d.Buffer

/-! ## Driver methods that allocate or change the orientation -/

/-- Go `make([]byte, n)`: a zeroed slice of length `n`; panics when `n < 0`.
The allocation limit of the Go runtime is not modelled: above it the real call
panics as well, so a `some` result is what the call returns when the allocation
succeeds. -/
def makeBytes (n : Int) : Option (List Byte) :=
  if 0 ≤ n then some (List.replicate n.toNat 0) else none

/-- Go `GetFullScreenCanvas`; the result is `none` when `make` panics. -/
def GetFullScreenCanvas (s : ILI9488) : Effect (Option Canvas) :=
  { result := (makeBytes (wrapInt (wrapInt (s.width * s.height) * 3))).map fun buf =>
      { X0 := 0, Y0 := 0
        X1 := wrapInt (s.width - 1)
        Y1 := wrapInt (s.height - 1)
        Width := s.width
        Height := s.height
        Buffer := buf }
    state := s
    trace := [] }

/-- Go `GetCanvas`; the result is `none` when `make` panics. -/
def GetCanvas (s : ILI9488) (x0 y0 x1 y1 : Int) : Effect (Option Canvas) :=
  let width := wrapInt (wrapInt (x1 - x0) + 1)
  let height := wrapInt (wrapInt (y1 - y0) + 1)
  { result := (makeBytes (wrapInt (wrapInt (width * height) * 3))).map fun buf =>
      { X0 := x0, Y0 := y0, X1 := x1, Y1 := y1
        Width := width
        Height := height
        Buffer := buf }
    state := s
    trace := [] }

/-- Go `LcdDirection`. -/
def LcdDirection (s : ILI9488) (direction : Byte) : Effect Unit :=
  (Command s 0x36).andThen fun s =>
  let direction : Byte := direction % 4
  if direction = 0 then
    let s := { s with width := LCD_W, height := LCD_H }
    SendData s [Fin.ofNat ((1 <<< 3) ||| (0 <<< 6) ||| (0 <<< 7))]
  else if direction = 1 then
    let s := { s with width := LCD_H, height := LCD_W }
    SendData s [Fin.ofNat ((1 <<< 3) ||| (0 <<< 7) ||| (1 <<< 6) ||| (1 <<< 5))]
  else
    let s := { s with width := LCD_H, height := LCD_W }
    SendData s [Fin.ofNat ((1 <<< 3) ||| (1 <<< 7) ||| (1 <<< 5))]

/-! ## Reset, initialisation and construction -/

/-- A call that only emits one event. -/
def emit (s : ILI9488) (e : Event) : Effect Unit :=
  { result := (), state := s, trace := [e] }

/-- Driver calls run one after another. -/
def runAll (s : ILI9488) : List (ILI9488 → Effect Unit) → Effect Unit
  | [] => { result := (), state := s, trace := [] }
  | f :: fs => (f s).andThen fun s => runAll s fs

/-- Go `HardReset`. -/
def HardReset (s : ILI9488) : Effect Unit :=
  runAll s
    [fun s => emit s (Event.low Line.rst),
     fun s => emit s (Event.sleep 100),
     fun s => emit s (Event.high Line.rst),
     fun s => emit s (Event.sleep 50)]

/-- Go `init`. -/
def init (s : ILI9488) : Effect Unit :=
  runAll s
    [fun s => Command s 0xF7,
     fun s => SendData s [0xA9],
     fun s => SendData s [0x51],
     fun s => SendData s [0x2C],
     fun s => SendData s [0x82],
     fun s => Command s 0xC0,
     fun s => SendData s [0x11],
     fun s => SendData s [0x09],
     fun s => Command s 0xC1,
     fun s => SendData s [0x41],
     fun s => Command s 0xC5,
     fun s => SendData s [0x00],
     fun s => SendData s [0x0A],
     fun s => SendData s [0x80],
     fun s => Command s 0xB1,
     fun s => SendData s [0xB0],
     fun s => SendData s [0x11],
     fun s => Command s 0xB4,
     fun s => SendData s [0x02],
     fun s => Command s 0xB6,
     fun s => SendData s [0x02],
     fun s => SendData s [0x42],
     fun s => Command s 0xB7,
     fun s => SendData s [0xc6],
     fun s => Command s 0xBE,
     fun s => SendData s [0x00],
     fun s => SendData s [0x04],
     fun s => Command s 0xE9,
     fun s => SendData s [0x00],
     fun s => Command s 0x36,
     fun s => SendData s [Fin.ofNat ((1 <<< 3) ||| (0 <<< 7) ||| (1 <<< 6) ||| (1 <<< 5))],
     fun s => Command s 0x3A,
     fun s => SendData s [0x66],
     fun s => Command s 0xE0,
     fun s => SendData s [0x00],
     fun s => SendData s [0x07],
     fun s => SendData s [0x10],
     fun s => SendData s [0x09],
     fun s => SendData s [0x17],
     fun s => SendData s [0x0B],
     fun s => SendData s [0x41],
     fun s => SendData s [0x89],
     fun s => SendData s [0x4B],
     fun s => SendData s [0x0A],
     fun s => SendData s [0x0C],
     fun s => SendData s [0x0E],
     fun s => SendData s [0x18],
     fun s => SendData s [0x1B],
     fun s => SendData s [0x0F],
     fun s => Command s 0xE1,
     fun s => SendData s [0x00],
     fun s => SendData s [0x17],
     fun s => SendData s [0x1A],
     fun s => SendData s [0x04],
     fun s => SendData s [0x0E],
     fun s => SendData s [0x06],
     fun s => SendData s [0x2F],
     fun s => SendData s [0x45],
     fun s => SendData s [0x43],
     fun s => SendData s [0x02],
     fun s => SendData s [0x0A],
     fun s => SendData s [0x09],
     fun s => SendData s [0x32],
     fun s => SendData s [0x36],
     fun s => SendData s [0x0F],
     fun s => Command s 0x11,
     fun s => emit s (Event.sleep 120),
     fun s => Command s 0x29,
     fun s => LcdDirection s 0]

/-- Go `begin`. -/
def begin (s : ILI9488) : Effect Unit :=
  (HardReset s).andThen fun s => init s

/-- Go `NewST7789`: the constructed driver and the events of its construction.
The struct literal leaves `xStart` and `yStart` at their zero value. -/
def NewST7789 : Effect Unit :=
  let s : ILI9488 := { width := LCD_W, height := LCD_H, xStart := 0, yStart := 0 }
  runAll s
    [fun s => emit s (Event.setOutput Line.dc),
     fun s => emit s (Event.setOutput Line.rst),
     fun s => emit s (Event.setOutput Line.led),
     fun s => emit s (Event.high Line.led),
     fun s => emit s (Event.setOutput Line.cs),
     fun s => emit s (Event.spiSpeed SPI_CLOCK_HZ),
     fun s => emit s Event.setSpiMode0,
     fun s => begin s]

/-- Go `for i := lo; ...; i += step { body }` unrolled `n` times from `i`. -/
def forCountBy {σ : Type} (step : Int) (body : Int → σ → Option σ) : Nat → Int → σ → Option σ
  | 0, _, s => some s
  | n + 1, i, s => (body i s).bind (forCountBy step body n (i + step))

/-- Go `Clear` of the driver; `none` when `make` or an index panics.  The loop
`for i := 0; i < len(buf); i += 3` runs `⌈len(buf)/3⌉` times. -/
def Clear (s : ILI9488) (r g b : Byte) : Option (Effect Unit) :=
  (makeBytes (wrapInt (wrapInt (s.width * s.height) * 3))).bind fun buf =>
  (forCountBy 3 (fun i buf =>
      (storeByte buf i r).bind fun buf =>
      (storeByte buf (wrapInt (i + 1)) g).bind fun buf =>
      storeByte buf (wrapInt (i + 2)) b)
    ((buf.length + 2) / 3) 0 buf).map fun buf =>
  FlushBitBuffer s 0 0 (wrapInt (s.width - 1)) (wrapInt (s.height - 1)) buf

/-! ## Definitions used to state the properties -/

/-- The high byte of a coordinate as `SetWindow` sends it: `hi(v) = byte(v >> 8)`. -/
def hiByte (v : Int) : Byte := byteOfInt (v >>> (8 : Nat))

/-- The low byte of a coordinate as `SetWindow` sends it: `lo(v) = byte(v)`. -/
def loByte (v : Int) : Byte := byteOfInt v

/-- The three-byte cell of a pixel, read. -/
def readCell (buf : List Byte) (n : Nat) : Option (Byte × Byte × Byte) :=
  (buf[n]?).bind fun r => (buf[n + 1]?).bind fun g => (buf[n + 2]?).bind fun b => some (r, g, b)

/-- The three-byte cell of a pixel, written. -/
def writeCell (buf : List Byte) (n : Nat) (r g b : Byte) : List Byte :=
  ((buf.set n r).set (n + 1) g).set (n + 2) b

/-- The byte offset of an in-range pixel, as a natural number. -/
def cellOf (d : Canvas) (x y : Int) : Nat := ((y * d.Width + x) * 3).toNat

/-- The canvas `d2` has the rectangle, dimensions and buffer length of `d`. -/
def SameShape (d d2 : Canvas) : Prop :=
  d2.X0 = d.X0 ∧ d2.Y0 = d.Y0 ∧ d2.X1 = d.X1 ∧ d2.Y1 = d.Y1 ∧
  d2.Width = d.Width ∧ d2.Height = d.Height ∧ d2.Buffer.length = d.Buffer.length

/-- A pixel triple transformer, indexed by the pixel's coordinates. -/
abbrev PixelMap := Int → Int → Byte × Byte × Byte → Byte × Byte × Byte

/-- The canvas `d2` is `d` with every in-range pixel of the region `R` replaced by
`F` of its old value, and every other in-range pixel as it was. -/
def PixelStep (d d2 : Canvas) (R : Int → Int → Prop) (F : PixelMap) : Prop :=
  SameShape d d2 ∧
  ∀ x y, 0 ≤ x → x < d.Width → 0 ≤ y → y < d.Height →
    (R x y → d2.GetRGB x y = (d.GetRGB x y).map (F x y)) ∧
    (¬ R x y → d2.GetRGB x y = d.GetRGB x y)

/-- The specification's compositing formula for one channel, over the naturals:
`(foreground*alpha + background*(255-alpha)) / 255`. -/
def overChannel (fg alpha bg : Nat) : Nat := (fg * alpha + bg * (255 - alpha)) / 255

/-- A 2×2 canvas used to instantiate the theorems. -/
def sampleCanvas : Canvas :=
  { X0 := 0, Y0 := 0, X1 := 1, Y1 := 1, Width := 2, Height := 2
    Buffer := [1, 2, 3, 4, 5, 6, 7, 8, 9, 10, 11, 12] }

/-- A 1×1 opaque image at the origin, used to instantiate the theorems. -/
def sampleImage : Image :=
  { Bounds := { Min := { X := 0, Y := 0 }, Max := { X := 1, Y := 1 } }
    At := fun _ _ => colorNRGBA 40 50 60 255 }

/-- An image whose bounds start one row above the canvas. -/
def imageAbove : Image :=
  { Bounds := { Min := { X := 0, Y := -1 }, Max := { X := 1, Y := 0 } }
    At := fun _ _ => colorNRGBA 40 50 60 255 }

/-- An image whose bounds start one column left of the canvas, on row 1. -/
def imageLeft : Image :=
  { Bounds := { Min := { X := -1, Y := 1 }, Max := { X := 0, Y := 2 } }
    At := fun _ _ => colorNRGBA 40 50 60 255 }

/-- A client call on the driver or on one of its canvases. -/
inductive Call
  | lcdDirection (direction : Byte)
  | setWindow (x0 y0 x1 y1 : Int)
  | flushBitBuffer (x0 y0 x1 y1 : Int) (buffer : List Byte)
  | clear (r g b : Byte)
  | size
  | getCanvas (x0 y0 x1 y1 : Int)
  | getFullScreenCanvas
  | command (data : Byte)
  | sendData (data : List Byte)
  | canvasFlush (c : Canvas)
  | canvasFlushDirectly (c : Canvas) (buffer : List Byte)

/-- The driver's fields after a call.  A panic inside `Clear` ends the program
before any field is assigned. -/
def Call.after (s : ILI9488) : Call → ILI9488
  | Call.lcdDirection d => (LcdDirection s d).state
  | Call.setWindow x0 y0 x1 y1 => (SetWindow s x0 y0 x1 y1).state
  | Call.flushBitBuffer x0 y0 x1 y1 buffer => (FlushBitBuffer s x0 y0 x1 y1 buffer).state
  | Call.clear r g b =>
    match Clear s r g b with
    | some e => e.state
    | none => s
  | Call.size => (Size s).state
  | Call.getCanvas x0 y0 x1 y1 => (GetCanvas s x0 y0 x1 y1).state
  | Call.getFullScreenCanvas => (GetFullScreenCanvas s).state
  | Call.command data => (Command s data).state
  | Call.sendData data => (SendData s data).state
  | Call.canvasFlush c => (c.Flush s).state
  | Call.canvasFlushDirectly c buffer => (c.FlushDirectly s buffer).state

/-- The driver's fields after a sequence of calls. -/
def runCalls (s : ILI9488) : List Call → ILI9488
  | [] => s
  | c :: cs => runCalls (c.after s) cs

/-- The selector of the most recent `LcdDirection` call in a sequence, `cur` if
there is none. -/
def lastSelector (cur : Option Byte) : List Call → Option Byte
  | [] => cur
  | Call.lcdDirection d :: cs => lastSelector (some d) cs
  | _ :: cs => lastSelector cur cs

/-- The logical size that goes with the most recent selector. -/
def sizeFor : Option Byte → Int × Int
  | none => (320, 480)
  | some d => if d.val % 4 = 0 then (320, 480) else (480, 320)

/-- Where a trace stands with respect to the chip-select framing. -/
inductive BusPhase
  | idle
  | asserted
  | selected
  | sent
  deriving DecidableEq, Repr

/-- Events that touch neither chip-select, nor the data/command line, nor the bus. -/
def Event.offBus : Event → Bool
  | Event.sleep _ => true
  | Event.setOutput _ => true
  | Event.spiSpeed _ => true
  | Event.setSpiMode0 => true
  | Event.high Line.rst => true
  | Event.low Line.rst => true
  | Event.high Line.led => true
  | Event.low Line.led => true
  | _ => false

/-- One step of the framing automaton: chip-select low, exactly one write of the
data/command line, exactly one transmission, chip-select high; outside a frame
only off-bus events. -/
def busStep (ph : BusPhase) (e : Event) : Option BusPhase :=
  match ph, e with
  | BusPhase.idle, Event.low Line.cs => some BusPhase.asserted
  | BusPhase.idle, e => if e.offBus then some BusPhase.idle else none
  | BusPhase.asserted, Event.high Line.dc => some BusPhase.selected
  | BusPhase.asserted, Event.low Line.dc => some BusPhase.selected
  | BusPhase.selected, Event.spiTransmit _ => some BusPhase.sent
  | BusPhase.sent, Event.high Line.cs => some BusPhase.idle
  | _, _ => none

/-- The framing automaton run over a trace. -/
def busRun : BusPhase → List Event → Option BusPhase
  | ph, [] => some ph
  | ph, e :: t => (busStep ph e).bind fun ph2 => busRun ph2 t

/-- A trace made of whole frames and off-bus events, chip-select released at the end. -/
def Disciplined (t : List Event) : Prop := busRun BusPhase.idle t = some BusPhase.idle

instance (t : List Event) : Decidable (Disciplined t) := by
  unfold Disciplined; infer_instance

/-- Every transmission of the trace sits in a frame of its own: chip-select low two
events before it, one write of the data/command line right before it, chip-select
high right after it. -/
def TransmitFramed (t : List Event) : Prop :=
  ∀ i p, t[i]? = some (Event.spiTransmit p) →
    ∃ j, i = j + 2 ∧ t[j]? = some (Event.low Line.cs) ∧
      (t[j + 1]? = some (Event.high Line.dc) ∨ t[j + 1]? = some (Event.low Line.dc)) ∧
      t[j + 3]? = some (Event.high Line.cs)

/-- The bus discipline of a whole operation: the trace is made of whole frames and
off-bus events, every transmission sits in a frame of its own, and the last event
releases chip-select. -/
def BusOk (t : List Event) : Prop :=
  Disciplined t ∧ TransmitFramed t ∧ t.getLast? = some (Event.high Line.cs)

/-- The events of one framed transmission. -/
def frame (isData : Bool) (payload : List Byte) : List Event :=
  [Event.low Line.cs, if isData then Event.high Line.dc else Event.low Line.dc,
   Event.spiTransmit payload, Event.high Line.cs]

/-- Data bytes sent one per transmission. -/
def dataFrames : List Byte → List Event
  | [] => []
  | b :: bs => frame true [b] ++ dataFrames bs

/-- Register writes, each a command transmission followed by its data bytes, one
transmission per byte. -/
def renderWrites : List (Byte × List Byte) → List Event
  | [] => []
  | (c, ds) :: rest => frame false [c] ++ dataFrames ds ++ renderWrites rest

/-- The fixed register writes of `init`, as (command, data bytes) pairs. -/
def registerWrites : List (Byte × List Byte) :=
  [(0xF7, [0xA9, 0x51, 0x2C, 0x82]),
   (0xC0, [0x11, 0x09]),
   (0xC1, [0x41]),
   (0xC5, [0x00, 0x0A, 0x80]),
   (0xB1, [0xB0, 0x11]),
   (0xB4, [0x02]),
   (0xB6, [0x02, 0x42]),
   (0xB7, [0xC6]),
   (0xBE, [0x00, 0x04]),
   (0xE9, [0x00]),
   (0x36, [0x68]),
   (0x3A, [0x66]),
   (0xE0, [0x00, 0x07, 0x10, 0x09, 0x17, 0x0B, 0x41, 0x89, 0x4B, 0x0A, 0x0C, 0x0E, 0x18, 0x1B,
           0x0F]),
   (0xE1, [0x00, 0x17, 0x1A, 0x04, 0x0E, 0x06, 0x2F, 0x45, 0x43, 0x02, 0x0A, 0x09, 0x32, 0x36,
           0x0F])]

/-- The canvas invariant of the specification: the dimensions are those of the
bound rectangle and the buffer holds three bytes per pixel. -/
def Canvas.Inv (c : Canvas) : Prop :=
  c.Width = c.X1 - c.X0 + 1 ∧ c.Height = c.Y1 - c.Y0 + 1 ∧ c.Sized ∧ c.LenIsInt

/-- The canvas returned by `GetCanvas(10, 20, 19, 29)`: a 10×10 region with a zeroed
buffer of 300 bytes. -/
def sampleRegion : Canvas :=
  { X0 := 10, Y0 := 20, X1 := 19, Y1 := 29, Width := 10, Height := 10
    Buffer := List.replicate 300 0 }

/-- The canvas returned by `GetCanvas(0, 0, 2^62-1, 3)`: width `2^62`, height `4`, and,
the byte count having wrapped to `0`, an empty buffer. -/
def overflowCanvas : Canvas :=
  { X0 := 0, Y0 := 0, X1 := 4611686018427387903, Y1 := 3
    Width := 4611686018427387904, Height := 4, Buffer := [] }

/-! ## The window protocol -/

theorem shiftRight8 (v : Int) : v >>> (8 : Nat) = v / 256 := by
  rw [Int.shiftRight_eq_div_pow]; norm_num

theorem byteOfInt_wrapInt (v : Int) : byteOfInt (wrapInt v) = byteOfInt v := by
  have h : wrapInt v % 256 = v % 256 := by unfold wrapInt; omega
  unfold byteOfInt
  rw [h]

theorem byteOfInt_shift_wrapInt (v : Int) :
    byteOfInt (wrapInt v >>> (8 : Nat)) = byteOfInt (v >>> (8 : Nat)) := by
  have h : (wrapInt v >>> (8 : Nat)) % 256 = (v >>> (8 : Nat)) % 256 := by
    rw [shiftRight8, shiftRight8]
    unfold wrapInt
    omega
  unfold byteOfInt
  rw [h]

theorem hi_lo_value (v : Int) (h0 : 0 ≤ v) (h1 : v ≤ 65535) :
    ((hiByte v).val : Int) * 256 + (loByte v).val = v := by
  unfold hiByte loByte byteOfInt
  rw [shiftRight8]
  simp only [Fin.ofNat, Fin.val_mk]
  omega

/-- C2: for every driver state and all integers `x0 y0 x1 y1`, `SetWindow` emits
exactly five bus transmissions, each framed by chip-select low ... high with the
data/command line low for a command and high for data, in this order: command
`[0x2A]`; data `[hi(x0+xStart), lo(x0+xStart), hi(x1+xStart), lo(x1+xStart)]`;
command `[0x2B]`; data `[hi(y0+yStart), lo(y0+yStart), hi(y1+yStart), lo(y1+yStart)]`;
command `[0x2C]`, with nothing after it.  The sums are integer sums (the 64-bit
wrap-around of the source's `+=` does not change these bytes), the driver's
fields are unchanged, and for `0 ≤ v ≤ 65535` the pair is the big-endian
encoding: `hi(v)*256 + lo(v) = v`. -/
theorem setWindow_emits (s : ILI9488) (x0 y0 x1 y1 : Int) :
    (SetWindow s x0 y0 x1 y1).trace =
      [Event.low Line.cs, Event.low Line.dc, Event.spiTransmit [0x2A], Event.high Line.cs,
       Event.low Line.cs, Event.high Line.dc,
       Event.spiTransmit [hiByte (x0 + s.xStart), loByte (x0 + s.xStart),
                          hiByte (x1 + s.xStart), loByte (x1 + s.xStart)],
       Event.high Line.cs,
       Event.low Line.cs, Event.low Line.dc, Event.spiTransmit [0x2B], Event.high Line.cs,
       Event.low Line.cs, Event.high Line.dc,
       Event.spiTransmit [hiByte (y0 + s.yStart), loByte (y0 + s.yStart),
                          hiByte (y1 + s.yStart), loByte (y1 + s.yStart)],
       Event.high Line.cs,
       Event.low Line.cs, Event.low Line.dc, Event.spiTransmit [0x2C], Event.high Line.cs] ∧
    (SetWindow s x0 y0 x1 y1).state = s ∧
    ∀ v : Int, 0 ≤ v → v ≤ 65535 → ((hiByte v).val : Int) * 256 + (loByte v).val = v := by
  refine ⟨?_, rfl, hi_lo_value⟩
  simp [SetWindow, Effect.andThen, Command, SendData, ExchangeData, SET_X_CMD, SET_Y_CMD,
    WARM_CMD, hiByte, loByte, byteOfInt_wrapInt, byteOfInt_shift_wrapInt]

theorem setWindow_emits_witness :
    (SetWindow { width := 320, height := 480, xStart := 0, yStart := 0 } 0 0 319 479).trace =
      [Event.low Line.cs, Event.low Line.dc, Event.spiTransmit [0x2A], Event.high Line.cs,
       Event.low Line.cs, Event.high Line.dc, Event.spiTransmit [0, 0, 1, 63],
       Event.high Line.cs,
       Event.low Line.cs, Event.low Line.dc, Event.spiTransmit [0x2B], Event.high Line.cs,
       Event.low Line.cs, Event.high Line.dc, Event.spiTransmit [0, 0, 1, 223],
       Event.high Line.cs,
       Event.low Line.cs, Event.low Line.dc, Event.spiTransmit [0x2C], Event.high Line.cs] ∧
    (0 : Int) ≤ 479 ∧ (479 : Int) ≤ 65535 ∧
    ((hiByte 479).val : Int) * 256 + (loByte 479).val = 479 :=
  ⟨(setWindow_emits { width := 320, height := 480, xStart := 0, yStart := 0 } 0 0 319 479).1,
    by decide, by decide,
    (setWindow_emits { width := 320, height := 480, xStart := 0, yStart := 0 } 0 0 319 479).2.2
      479 (by decide) (by decide)⟩

/-! ## Pixel cells of a canvas -/

theorem wrapInt_of_range (v : Int) (h1 : -9223372036854775808 ≤ v)
    (h2 : v < 9223372036854775808) : wrapInt v = v := by
  unfold wrapInt; omega

theorem length_writeCell (buf : List Byte) (n : Nat) (r g b : Byte) :
    (writeCell buf n r g b).length = buf.length := by
  simp [writeCell]

theorem readCell_writeCell_same (buf : List Byte) (n : Nat) (r g b : Byte)
    (h : n + 2 < buf.length) : readCell (writeCell buf n r g b) n = some (r, g, b) := by
  have h0 : n < buf.length := by omega
  have h1 : n + 1 < buf.length := by omega
  simp [readCell, writeCell, List.getElem?_set, h, h0, h1]

theorem readCell_writeCell_other (buf : List Byte) (n m : Nat) (r g b : Byte)
    (h : n + 3 ≤ m ∨ m + 3 ≤ n) : readCell (writeCell buf n r g b) m = readCell buf m := by
  have e : ∀ k, k = m ∨ k = m + 1 ∨ k = m + 2 → (writeCell buf n r g b)[k]? = buf[k]? := by
    intro k hk
    unfold writeCell
    rw [List.getElem?_set_ne (by omega), List.getElem?_set_ne (by omega),
      List.getElem?_set_ne (by omega)]
  unfold readCell
  rw [e m (by simp), e (m + 1) (by simp), e (m + 2) (by simp)]

theorem readCell_isSome (buf : List Byte) (n : Nat) (h : n + 2 < buf.length) :
    ∃ p, readCell buf n = some p := by
  have h0 : n < buf.length := by omega
  have h1 : n + 1 < buf.length := by omega
  refine ⟨(buf[n], buf[n+1], buf[n+2]), ?_⟩
  simp [readCell, List.getElem?_eq_getElem, h, h0, h1]

theorem writeCell_readCell (buf : List Byte) (n : Nat) (r g b : Byte)
    (h : readCell buf n = some (r, g, b)) : writeCell buf n r g b = buf := by
  unfold readCell at h
  cases h0 : buf[n]? with
  | none => simp [h0] at h
  | some r' =>
    cases h1 : buf[n + 1]? with
    | none => simp [h0, h1] at h
    | some g' =>
      cases h2 : buf[n + 2]? with
      | none => simp [h0, h1, h2] at h
      | some b' =>
        simp [h0, h1, h2] at h
        obtain ⟨rfl, rfl, rfl⟩ := h
        unfold writeCell
        rw [List.getElem?_eq_some_iff] at h0 h1 h2
        obtain ⟨k0, e0⟩ := h0
        obtain ⟨k1, e1⟩ := h1
        obtain ⟨k2, e2⟩ := h2
        apply List.ext_getElem (by simp)
        intro i hi1 hi2
        simp only [List.getElem_set]
        split_ifs <;> simp_all

theorem pixel_lt (W H x y : Int) (hx0 : 0 ≤ x) (hx : x < W) (hy0 : 0 ≤ y) (hy : y < H) :
    0 ≤ y * W ∧ y * W + x < W * H := by
  have hW : 0 ≤ W := by omega
  have h1 : 0 ≤ y * W := mul_nonneg hy0 hW
  have h2 : (y + 1) * W ≤ H * W := mul_le_mul_of_nonneg_right (by omega) hW
  constructor
  · exact h1
  · nlinarith

theorem index_in_range (d : Canvas) (x y : Int) (hs : d.Sized) (hl : d.LenIsInt)
    (hx0 : 0 ≤ x) (hx : x < d.Width) (hy0 : 0 ≤ y) (hy : y < d.Height) :
    d.getBufferBeginIndex x y = (cellOf d x y : Int) ∧
    wrapInt (d.getBufferBeginIndex x y + 1) = ((cellOf d x y + 1 : Nat) : Int) ∧
    wrapInt (d.getBufferBeginIndex x y + 2) = ((cellOf d x y + 2 : Nat) : Int) ∧
    cellOf d x y + 2 < d.Buffer.length := by
  obtain ⟨h1, h2⟩ := pixel_lt d.Width d.Height x y hx0 hx hy0 hy
  unfold Canvas.Sized at hs
  unfold Canvas.LenIsInt at hl
  have e1 : wrapInt (y * d.Width) = y * d.Width := wrapInt_of_range _ (by omega) (by omega)
  have e2 : wrapInt (y * d.Width + x) = y * d.Width + x := wrapInt_of_range _ (by omega) (by omega)
  have e3 : wrapInt ((y * d.Width + x) * 3) = (y * d.Width + x) * 3 :=
    wrapInt_of_range _ (by omega) (by omega)
  have e4 : wrapInt ((y * d.Width + x) * 3 + 1) = (y * d.Width + x) * 3 + 1 :=
    wrapInt_of_range _ (by omega) (by omega)
  have e5 : wrapInt ((y * d.Width + x) * 3 + 2) = (y * d.Width + x) * 3 + 2 :=
    wrapInt_of_range _ (by omega) (by omega)
  unfold Canvas.getBufferBeginIndex cellOf
  rw [e1, e2, e3, e4, e5]
  refine ⟨?_, ?_, ?_, ?_⟩ <;> omega

theorem loadByte_natCast (buf : List Byte) (n : Nat) : loadByte buf (n : Int) = buf[n]? := by
  simp [loadByte]

theorem storeByte_natCast (buf : List Byte) (n : Nat) (v : Byte) (h : n < buf.length) :
    storeByte buf (n : Int) v = some (buf.set n v) := by
  simp [storeByte, h]

theorem GetRGB_eq (d : Canvas) (x y : Int) (hs : d.Sized) (hl : d.LenIsInt)
    (hx0 : 0 ≤ x) (hx : x < d.Width) (hy0 : 0 ≤ y) (hy : y < d.Height) :
    d.GetRGB x y = readCell d.Buffer (cellOf d x y) := by
  obtain ⟨e0, e1, e2, _⟩ := index_in_range d x y hs hl hx0 hx hy0 hy
  unfold Canvas.GetRGB readCell
  simp only [e1, e2]
  rw [e0]
  simp only [loadByte_natCast]

theorem SetRGB_eq (d : Canvas) (x y : Int) (r g b : Byte) (hs : d.Sized) (hl : d.LenIsInt)
    (hx0 : 0 ≤ x) (hx : x < d.Width) (hy0 : 0 ≤ y) (hy : y < d.Height) :
    d.SetRGB x y r g b = some { d with Buffer := writeCell d.Buffer (cellOf d x y) r g b } := by
  obtain ⟨e0, e1, e2, hlt⟩ := index_in_range d x y hs hl hx0 hx hy0 hy
  unfold Canvas.SetRGB writeCell
  simp only [e1, e2]
  rw [e0]
  rw [storeByte_natCast _ _ _ (by omega)]
  simp only [Option.some_bind]
  rw [storeByte_natCast _ _ _ (by simp; omega)]
  simp only [Option.some_bind]
  rw [storeByte_natCast _ _ _ (by simp; omega)]
  simp only [Option.some_bind]

/-- Distinct in-range pixels have cells three or more bytes apart. -/
theorem cellOf_apart (d : Canvas) (x y x2 y2 : Int)
    (hx0 : 0 ≤ x) (hx : x < d.Width) (hy0 : 0 ≤ y)
    (hx20 : 0 ≤ x2) (hx2 : x2 < d.Width) (hy20 : 0 ≤ y2)
    (hne : ¬ (x2 = x ∧ y2 = y)) :
    cellOf d x y + 3 ≤ cellOf d x2 y2 ∨ cellOf d x2 y2 + 3 ≤ cellOf d x y := by
  have hW : 0 ≤ d.Width := by omega
  have h1 : 0 ≤ y * d.Width := mul_nonneg hy0 hW
  have h2 : 0 ≤ y2 * d.Width := mul_nonneg hy20 hW
  unfold cellOf
  rcases lt_trichotomy y y2 with h | h | h
  · have : (y + 1) * d.Width ≤ y2 * d.Width := mul_le_mul_of_nonneg_right (by omega) hW
    left
    have : y * d.Width + x + 1 ≤ y2 * d.Width + x2 := by nlinarith
    omega
  · subst h
    have : x2 ≠ x := fun e => hne ⟨e, rfl⟩
    omega
  · have : (y2 + 1) * d.Width ≤ y * d.Width := mul_le_mul_of_nonneg_right (by omega) hW
    right
    have : y2 * d.Width + x2 + 1 ≤ y * d.Width + x := by nlinarith
    omega

theorem SameShape.refl (d : Canvas) : SameShape d d :=
  ⟨rfl, rfl, rfl, rfl, rfl, rfl, rfl⟩

theorem SameShape.trans {a b c : Canvas} (h1 : SameShape a b) (h2 : SameShape b c) :
    SameShape a c := by
  unfold SameShape at *
  obtain ⟨a1, a2, a3, a4, a5, a6, a7⟩ := h1
  obtain ⟨b1, b2, b3, b4, b5, b6, b7⟩ := h2
  refine ⟨?_, ?_, ?_, ?_, ?_, ?_, ?_⟩ <;> simp [*]

theorem SameShape.sized {d d2 : Canvas} (h : SameShape d d2) (hs : d.Sized) : d2.Sized := by
  unfold SameShape at h
  unfold Canvas.Sized at *
  obtain ⟨_, _, _, _, a5, a6, a7⟩ := h
  rw [a5, a6, a7]; exact hs

theorem SameShape.lenIsInt {d d2 : Canvas} (h : SameShape d d2) (hl : d.LenIsInt) :
    d2.LenIsInt := by
  unfold SameShape at h
  unfold Canvas.LenIsInt at *
  obtain ⟨_, _, _, _, _, _, a7⟩ := h
  rw [a7]; exact hl

/-- Writing one in-range pixel is a `PixelStep` on the one-pixel region. -/
theorem SetRGB_step (d : Canvas) (x y : Int) (r g b : Byte) (hs : d.Sized) (hl : d.LenIsInt)
    (hx0 : 0 ≤ x) (hx : x < d.Width) (hy0 : 0 ≤ y) (hy : y < d.Height) :
    ∃ d2, d.SetRGB x y r g b = some d2 ∧
      d2.Buffer = writeCell d.Buffer (cellOf d x y) r g b ∧
      PixelStep d d2 (fun x2 y2 => x2 = x ∧ y2 = y) (fun _ _ _ => (r, g, b)) := by
  obtain ⟨_, _, _, hlt⟩ := index_in_range d x y hs hl hx0 hx hy0 hy
  refine ⟨_, SetRGB_eq d x y r g b hs hl hx0 hx hy0 hy, rfl, ?_, ?_⟩
  · exact ⟨rfl, rfl, rfl, rfl, rfl, rfl, length_writeCell _ _ _ _ _⟩
  · intro x2 y2 hx20 hx2 hy20 hy2
    have hsh : SameShape d { d with Buffer := writeCell d.Buffer (cellOf d x y) r g b } :=
      ⟨rfl, rfl, rfl, rfl, rfl, rfl, length_writeCell _ _ _ _ _⟩
    rw [GetRGB_eq _ x2 y2 (hsh.sized hs) (hsh.lenIsInt hl) hx20 hx2 hy20 hy2,
      GetRGB_eq d x2 y2 hs hl hx20 hx2 hy20 hy2]
    constructor
    · rintro ⟨rfl, rfl⟩
      obtain ⟨p, hp⟩ := readCell_isSome d.Buffer (cellOf d x2 y2) hlt
      rw [hp]
      exact readCell_writeCell_same _ _ _ _ _ hlt
    · intro hne
      exact readCell_writeCell_other _ _ _ _ _ _
        (cellOf_apart d x y x2 y2 hx0 hx hy0 hx20 hx2 hy20 hne)

/-- Compositing one in-range pixel is a `PixelStep` on the one-pixel region. -/
theorem SetColor_step (d : Canvas) (x y : Int) (c : Color) (hs : d.Sized) (hl : d.LenIsInt)
    (hx0 : 0 ≤ x) (hx : x < d.Width) (hy0 : 0 ≤ y) (hy : y < d.Height) :
    ∃ d2 bg, d.GetRGB x y = some bg ∧ d.SetColor x y c = some d2 ∧
      d2.Buffer = writeCell d.Buffer (cellOf d x y) (computeAlpha c bg.1 bg.2.1 bg.2.2).1
        (computeAlpha c bg.1 bg.2.1 bg.2.2).2.1 (computeAlpha c bg.1 bg.2.1 bg.2.2).2.2 ∧
      PixelStep d d2 (fun x2 y2 => x2 = x ∧ y2 = y)
        (fun _ _ p => computeAlpha c p.1 p.2.1 p.2.2) := by
  obtain ⟨_, _, _, hlt⟩ := index_in_range d x y hs hl hx0 hx hy0 hy
  obtain ⟨bg, hbg⟩ := readCell_isSome d.Buffer (cellOf d x y) hlt
  have hget := GetRGB_eq d x y hs hl hx0 hx hy0 hy
  rw [hbg] at hget
  obtain ⟨d2, h1, h2, h3, h4⟩ := SetRGB_step d x y (computeAlpha c bg.1 bg.2.1 bg.2.2).1
    (computeAlpha c bg.1 bg.2.1 bg.2.2).2.1 (computeAlpha c bg.1 bg.2.1 bg.2.2).2.2
    hs hl hx0 hx hy0 hy
  refine ⟨d2, bg, hget, ?_, h2, h3, ?_⟩
  · unfold Canvas.SetColor
    rw [hget]
    exact h1
  · intro x2 y2 hx20 hx2 hy20 hy2
    obtain ⟨k1, k2⟩ := h4 x2 y2 hx20 hx2 hy20 hy2
    refine ⟨?_, k2⟩
    rintro ⟨rfl, rfl⟩
    rw [k1 ⟨rfl, rfl⟩, hget]
    rfl

/-! ## Loops over pixels -/

/-- A counted loop whose `i`-th round is a `PixelStep` on region `Rg i`, the regions of
different rounds being disjoint, is a `PixelStep` on the union of the regions. -/
theorem forCount_step (d0 : Canvas) (body : Int → Canvas → Option Canvas)
    (Rg : Int → Int → Int → Prop) (F : PixelMap)
    (hdisj : ∀ i j x y, Rg i x y → Rg j x y → i = j) :
    ∀ (n : Nat) (lo : Int) (d : Canvas), SameShape d0 d →
      (∀ i, lo ≤ i → i < lo + n → ∀ e, SameShape d0 e →
        ∃ e2, body i e = some e2 ∧ PixelStep e e2 (Rg i) F) →
      ∃ d2, forCount body n lo d = some d2 ∧
        PixelStep d d2 (fun x y => ∃ i, lo ≤ i ∧ i < lo + n ∧ Rg i x y) F := by
  intro n
  induction n with
  | zero =>
    intro lo d _ _
    refine ⟨d, rfl, SameShape.refl d, ?_⟩
    intro x y _ _ _ _
    constructor
    · rintro ⟨i, h1, h2, _⟩
      simp at h2
      omega
    · intro _; rfl
  | succ n ih =>
    intro lo d hd hbody
    obtain ⟨d1, hb1, hsh1, hpx1⟩ := hbody lo (le_refl _) (by push_cast; omega) d hd
    obtain ⟨d2, hb2, hsh2, hpx2⟩ := ih (lo + 1) d1 (hd.trans hsh1)
      (fun i h1 h2 e he => hbody i (by omega) (by push_cast; omega) e he)
    refine ⟨d2, ?_, hsh1.trans hsh2, ?_⟩
    · simp only [forCount, hb1, Option.some_bind]
      exact hb2
    · intro x y hx0 hx hy0 hy
      obtain ⟨a1, a2⟩ := hpx1 x y hx0 hx hy0 hy
      have hw : d1.Width = d.Width := hsh1.2.2.2.2.1
      have hh : d1.Height = d.Height := hsh1.2.2.2.2.2.1
      obtain ⟨b1, b2⟩ := hpx2 x y hx0 (by omega) hy0 (by omega)
      constructor
      · rintro ⟨i, h1, h2, h3⟩
        by_cases hi : i = lo
        · subst hi
          have hnot : ¬ ∃ j, i + 1 ≤ j ∧ j < i + 1 + (n : Int) ∧ Rg j x y := by
            rintro ⟨j, j1, _, j3⟩
            have := hdisj i j x y h3 j3
            omega
          rw [b2 hnot, a1 h3]
        · have hin : ∃ j, lo + 1 ≤ j ∧ j < lo + 1 + (n : Int) ∧ Rg j x y :=
            ⟨i, by omega, by push_cast at h2; omega, h3⟩
          have hnot : ¬ Rg lo x y := fun h => hi (hdisj i lo x y h3 h)
          rw [b1 hin, a2 hnot]
      · intro hnone
        have hnot1 : ¬ Rg lo x y := fun h => hnone ⟨lo, le_refl _, by push_cast; omega, h⟩
        have hnot2 : ¬ ∃ j, lo + 1 ≤ j ∧ j < lo + 1 + (n : Int) ∧ Rg j x y := by
          rintro ⟨j, j1, j2, j3⟩
          exact hnone ⟨j, by omega, by push_cast; omega, j3⟩
        rw [b2 hnot2, a2 hnot1]

/-- The same for the loop `for i := lo; i < hi; i++`. -/
theorem forUpTo_step (d0 : Canvas) (body : Int → Canvas → Option Canvas)
    (Rg : Int → Int → Int → Prop) (F : PixelMap)
    (hdisj : ∀ i j x y, Rg i x y → Rg j x y → i = j)
    (lo hi : Int) (d : Canvas) (hd : SameShape d0 d)
    (hbody : ∀ i, lo ≤ i → i < hi → ∀ e, SameShape d0 e →
        ∃ e2, body i e = some e2 ∧ PixelStep e e2 (Rg i) F) :
    ∃ d2, forUpTo lo hi body d = some d2 ∧
      PixelStep d d2 (fun x y => ∃ i, lo ≤ i ∧ i < hi ∧ Rg i x y) F := by
  obtain ⟨d2, h1, h2, h3⟩ := forCount_step d0 body Rg F hdisj (hi - lo).toNat lo d hd
    (fun i a b e he => hbody i a (by omega) e he)
  refine ⟨d2, h1, h2, ?_⟩
  intro x y hx0 hx hy0 hy
  obtain ⟨a1, a2⟩ := h3 x y hx0 hx hy0 hy
  constructor
  · rintro ⟨i, i1, i2, i3⟩
    exact a1 ⟨i, i1, by omega, i3⟩
  · intro hn
    apply a2
    rintro ⟨i, i1, i2, i3⟩
    exact hn ⟨i, i1, by omega, i3⟩

theorem PixelStep.congr {d d2 : Canvas} {R R2 : Int → Int → Prop} {F F2 : PixelMap}
    (h : PixelStep d d2 R F) (hR : ∀ x y, R x y ↔ R2 x y)
    (hF : ∀ x y p, R x y → F x y p = F2 x y p) : PixelStep d d2 R2 F2 := by
  obtain ⟨h1, h2⟩ := h
  refine ⟨h1, ?_⟩
  intro x y hx0 hx hy0 hy
  obtain ⟨a1, a2⟩ := h2 x y hx0 hx hy0 hy
  constructor
  · intro hr
    have hr1 : R x y := (hR x y).2 hr
    rw [a1 hr1]
    cases d.GetRGB x y with
    | none => rfl
    | some p => simp [hF x y p hr1]
  · intro hr
    exact a2 (fun k => hr ((hR x y).1 k))

/-- The method `Canvas.Clear` blackens exactly the in-range pixels. -/
theorem Clear_step (d : Canvas) (hs : d.Sized) (hl : d.LenIsInt) :
    ∃ d2, d.Clear = some d2 ∧
      PixelStep d d2 (fun x y => 0 ≤ x ∧ x < d.Width ∧ 0 ≤ y ∧ y < d.Height)
        (fun _ _ _ => (0, 0, 0)) := by
  have inner : ∀ i, 0 ≤ i → i < d.Width → ∀ e, SameShape d e →
      ∃ e2, forUpTo 0 e.Height (fun y c => c.SetRGB i y 0 0 0) e = some e2 ∧
        PixelStep e e2 (fun x y => x = i ∧ 0 ≤ y ∧ y < d.Height) (fun _ _ _ => (0, 0, 0)) := by
    intro i hi0 hi e he
    have hw : e.Width = d.Width := he.2.2.2.2.1
    have hh : e.Height = d.Height := he.2.2.2.2.2.1
    obtain ⟨e2, k1, k2⟩ := forUpTo_step d (fun y c => c.SetRGB i y 0 0 0)
      (fun j x y => x = i ∧ y = j) (fun _ _ _ => (0, 0, 0))
      (fun a b x y h1 h2 => by omega) 0 e.Height e he
      (fun j hj0 hj c hc => by
        have cw : c.Width = d.Width := hc.2.2.2.2.1
        have ch : c.Height = d.Height := hc.2.2.2.2.2.1
        obtain ⟨c2, m1, _, m2⟩ := SetRGB_step c i j 0 0 0 (hc.sized hs) (hc.lenIsInt hl)
          hi0 (by omega) hj0 (by omega)
        exact ⟨c2, m1, m2⟩)
    refine ⟨e2, k1, k2.congr ?_ (fun _ _ _ _ => rfl)⟩
    intro x y
    constructor
    · rintro ⟨j, j1, j2, rfl, rfl⟩
      exact ⟨rfl, j1, by omega⟩
    · rintro ⟨rfl, y1, y2⟩
      exact ⟨y, y1, by omega, rfl, rfl⟩
  obtain ⟨d2, k1, k2⟩ := forUpTo_step d
    (fun x c => forUpTo 0 c.Height (fun y c => c.SetRGB x y 0 0 0) c)
    (fun i x y => x = i ∧ 0 ≤ y ∧ y < d.Height) (fun _ _ _ => (0, 0, 0))
    (fun a b x y h1 h2 => by omega) 0 d.Width d (SameShape.refl d) inner
  refine ⟨d2, k1, k2.congr ?_ (fun _ _ _ _ => rfl)⟩
  intro x y
  constructor
  · rintro ⟨i, i1, i2, rfl, y1, y2⟩
    exact ⟨i1, i2, y1, y2⟩
  · rintro ⟨x1, x2, y1, y2⟩
    exact ⟨x, x1, x2, rfl, y1, y2⟩

/-- The method `Canvas.DrawImage`, for an image whose bounds start at non-negative
coordinates, composites exactly the pixels inside both the bounds and the canvas. -/
theorem DrawImage_step (d : Canvas) (img : Image) (hs : d.Sized) (hl : d.LenIsInt)
    (hminx : 0 ≤ img.Bounds.Min.X) (hminy : 0 ≤ img.Bounds.Min.Y) :
    ∃ d2, d.DrawImage img = some d2 ∧
      PixelStep d d2
        (fun x y => img.Bounds.Min.X ≤ x ∧ x < img.Bounds.Max.X ∧
          img.Bounds.Min.Y ≤ y ∧ y < img.Bounds.Max.Y)
        (fun x y p => computeAlpha (img.At x y) p.1 p.2.1 p.2.2) := by
  have inner : ∀ j, img.Bounds.Min.Y ≤ j → j < min img.Bounds.Max.Y d.Height →
      ∀ e, SameShape d e →
      ∃ e2, forUpTo img.Bounds.Min.X (min img.Bounds.Max.X e.Width)
          (fun x c => c.SetColor x j (img.At x j)) e = some e2 ∧
        PixelStep e e2
          (fun x y => y = j ∧ img.Bounds.Min.X ≤ x ∧ x < min img.Bounds.Max.X d.Width)
          (fun x y p => computeAlpha (img.At x y) p.1 p.2.1 p.2.2) := by
    intro j hj0 hj e he
    have hw : e.Width = d.Width := he.2.2.2.2.1
    have hh : e.Height = d.Height := he.2.2.2.2.2.1
    obtain ⟨e2, k1, k2⟩ := forUpTo_step d (fun x c => c.SetColor x j (img.At x j))
      (fun i x y => x = i ∧ y = j) (fun x y p => computeAlpha (img.At x y) p.1 p.2.1 p.2.2)
      (fun a b x y h1 h2 => by omega) img.Bounds.Min.X (min img.Bounds.Max.X e.Width) e he
      (fun i hi0 hi c hc => by
        have cw : c.Width = d.Width := hc.2.2.2.2.1
        have ch : c.Height = d.Height := hc.2.2.2.2.2.1
        obtain ⟨c2, _, _, m1, _, m2⟩ := SetColor_step c i j (img.At i j) (hc.sized hs)
          (hc.lenIsInt hl) (by omega) (by omega) (by omega) (by omega)
        refine ⟨c2, m1, m2.congr (fun _ _ => Iff.rfl) ?_⟩
        rintro x y p ⟨rfl, rfl⟩
        rfl)
    refine ⟨e2, k1, k2.congr ?_ (fun _ _ _ _ => rfl)⟩
    intro x y
    constructor
    · rintro ⟨i, i1, i2, rfl, rfl⟩
      exact ⟨rfl, i1, by omega⟩
    · rintro ⟨rfl, x1, x2⟩
      exact ⟨x, x1, by omega, rfl, rfl⟩
  obtain ⟨d2, k1, k2, k3⟩ := forUpTo_step d
    (fun y c => forUpTo img.Bounds.Min.X (min img.Bounds.Max.X c.Width)
      (fun x c => c.SetColor x y (img.At x y)) c)
    (fun j x y => y = j ∧ img.Bounds.Min.X ≤ x ∧ x < min img.Bounds.Max.X d.Width)
    (fun x y p => computeAlpha (img.At x y) p.1 p.2.1 p.2.2)
    (fun a b x y h1 h2 => by omega) img.Bounds.Min.Y (min img.Bounds.Max.Y d.Height) d
    (SameShape.refl d) inner
  refine ⟨d2, k1, k2, ?_⟩
  intro x y hx0 hx hy0 hy
  obtain ⟨a1, a2⟩ := k3 x y hx0 hx hy0 hy
  constructor
  · rintro ⟨x1, x2, y1, y2⟩
    exact a1 ⟨y, y1, by omega, rfl, x1, by omega⟩
  · intro hn
    apply a2
    rintro ⟨i, i1, i2, rfl, x1, x2⟩
    exact hn ⟨x1, by omega, i1, by omega⟩

/-! ## Compositing arithmetic -/

theorem wrapU32_of_lt (n : Nat) (h : n < 4294967296) : wrapU32 n = n :=
  Nat.mod_eq_of_lt h

theorem shr8 (n : Nat) : n >>> 8 = n / 256 := by
  rw [Nat.shiftRight_eq_div_pow]

/-- One channel of `computeAlpha` when the colour channel and the alpha are bytes. -/
theorem blendChannel_exact (c1 alpha : Nat) (c0 : Byte) (h1 : c1 ≤ 255) (ha : alpha ≤ 255) :
    c1 * alpha + c0.val * (255 - alpha) ≤ 255 * 255 ∧
    overChannel c1 alpha c0.val ≤ 255 ∧
    (blendChannel c1 alpha (wrapU32 (255 + 4294967296 - alpha)) c0).val
      = overChannel c1 alpha c0.val := by
  have hc0 : c0.val ≤ 255 := by omega
  have m1 : c1 * alpha ≤ 255 * alpha := Nat.mul_le_mul_right _ h1
  have m2 : c0.val * (255 - alpha) ≤ 255 * (255 - alpha) := Nat.mul_le_mul_right _ hc0
  have hsum : c1 * alpha + c0.val * (255 - alpha) ≤ 255 * 255 := by omega
  have hq : overChannel c1 alpha c0.val ≤ 255 := by
    unfold overChannel
    omega
  have hf : wrapU32 (255 + 4294967296 - alpha) = 255 - alpha := by
    unfold wrapU32
    omega
  refine ⟨hsum, hq, ?_⟩
  rw [hf]
  unfold blendChannel byteOfU32
  rw [wrapU32_of_lt (c1 * alpha) (by omega), wrapU32_of_lt (c0.val * (255 - alpha)) (by omega),
    wrapU32_of_lt _ (by omega)]
  unfold overChannel at hq ⊢
  simp only [Fin.ofNat, Fin.val_mk]
  omega

/-- C6: for every colour whose `RGBA()` components are at most `0xFFFF` and all
background bytes, `computeAlpha` returns per channel `(F*A + B*(255-A)) / 255`
computed exactly over the naturals, where `F` and `A` are the high bytes (`>> 8`)
of the colour channel and of alpha and `B` is the background byte: `A ≤ 255`, so
`255 - A` does not underflow; each sum is at most `255*255`, so no `uint32`
operation wraps; each quotient is at most `255`, so `uint8(...)` truncates
nothing. -/
theorem computeAlpha_exact (c : Color) (r0 g0 b0 : Byte)
    (hr : c.r.val ≤ 0xFFFF) (hg : c.g.val ≤ 0xFFFF) (hb : c.b.val ≤ 0xFFFF)
    (ha : c.a.val ≤ 0xFFFF) :
    c.a.val >>> 8 ≤ 255 ∧
    (c.r.val >>> 8) * (c.a.val >>> 8) + r0.val * (255 - (c.a.val >>> 8)) ≤ 255 * 255 ∧
    (c.g.val >>> 8) * (c.a.val >>> 8) + g0.val * (255 - (c.a.val >>> 8)) ≤ 255 * 255 ∧
    (c.b.val >>> 8) * (c.a.val >>> 8) + b0.val * (255 - (c.a.val >>> 8)) ≤ 255 * 255 ∧
    overChannel (c.r.val >>> 8) (c.a.val >>> 8) r0.val ≤ 255 ∧
    overChannel (c.g.val >>> 8) (c.a.val >>> 8) g0.val ≤ 255 ∧
    overChannel (c.b.val >>> 8) (c.a.val >>> 8) b0.val ≤ 255 ∧
    (computeAlpha c r0 g0 b0).1.val = overChannel (c.r.val >>> 8) (c.a.val >>> 8) r0.val ∧
    (computeAlpha c r0 g0 b0).2.1.val = overChannel (c.g.val >>> 8) (c.a.val >>> 8) g0.val ∧
    (computeAlpha c r0 g0 b0).2.2.val = overChannel (c.b.val >>> 8) (c.a.val >>> 8) b0.val := by
  have ea : c.a.val >>> 8 ≤ 255 := by rw [shr8]; omega
  have er : c.r.val >>> 8 ≤ 255 := by rw [shr8]; omega
  have eg : c.g.val >>> 8 ≤ 255 := by rw [shr8]; omega
  have eb : c.b.val >>> 8 ≤ 255 := by rw [shr8]; omega
  obtain ⟨r1, r2, r3⟩ := blendChannel_exact _ _ r0 er ea
  obtain ⟨g1, g2, g3⟩ := blendChannel_exact _ _ g0 eg ea
  obtain ⟨b1, b2, b3⟩ := blendChannel_exact _ _ b0 eb ea
  exact ⟨ea, r1, g1, b1, r2, g2, b2, r3, g3, b3⟩

theorem computeAlpha_exact_witness :
    (colorRGBA 200 100 50 128).r.val ≤ 0xFFFF ∧ (colorRGBA 200 100 50 128).g.val ≤ 0xFFFF ∧
    (colorRGBA 200 100 50 128).b.val ≤ 0xFFFF ∧ (colorRGBA 200 100 50 128).a.val ≤ 0xFFFF ∧
    (computeAlpha (colorRGBA 200 100 50 128) 10 20 30).1.val = overChannel 200 128 10 ∧
    (computeAlpha (colorRGBA 200 100 50 128) 10 20 30).2.1.val = overChannel 100 128 20 ∧
    (computeAlpha (colorRGBA 200 100 50 128) 10 20 30).2.2.val = overChannel 50 128 30 :=
  ⟨by decide, by decide, by decide, by decide,
    (computeAlpha_exact (colorRGBA 200 100 50 128) 10 20 30 (by decide) (by decide) (by decide)
      (by decide)).2.2.2.2.2.2.2⟩

set_option maxRecDepth 100000 in
theorem nrgba_opaque_channel : ∀ R : Byte,
    (Fin.ofNat (wrapU32 ((R.val ||| wrapU32 (R.val <<< 8)) * (255 : Byte).val) / 0xff) : U32).val
      >>> 8 = R.val := by
  decide

set_option maxRecDepth 100000 in
theorem rgba_channel : ∀ R : Byte,
    (Fin.ofNat (R.val ||| wrapU32 (R.val <<< 8)) : U32).val >>> 8 = R.val := by
  decide

theorem computeAlpha_opaque (c : Color) (r g b r0 g0 b0 : Byte)
    (ha : c.a.val >>> 8 = 255) (hr : c.r.val >>> 8 = r.val) (hg : c.g.val >>> 8 = g.val)
    (hb : c.b.val >>> 8 = b.val) : computeAlpha c r0 g0 b0 = (r, g, b) := by
  have key : ∀ (v c0 : Byte), blendChannel v.val 255 (wrapU32 (255 + 4294967296 - 255)) c0 = v := by
    intro v c0
    obtain ⟨_, _, h⟩ := blendChannel_exact v.val 255 c0 (by omega) (le_refl _)
    apply Fin.ext
    rw [h]
    unfold overChannel
    omega
  unfold computeAlpha
  simp only [ha, hr, hg, hb, key]

theorem computeAlpha_transparent (c : Color) (r0 g0 b0 : Byte) (ha : c.a.val >>> 8 = 0) :
    computeAlpha c r0 g0 b0 = (r0, g0, b0) := by
  have hf : wrapU32 (255 + 4294967296 - 0) = 255 := by decide
  have key : ∀ (v : Nat) (c0 : Byte), blendChannel v 0 255 c0 = c0 := by
    intro v c0
    apply Fin.ext
    unfold blendChannel byteOfU32
    rw [Nat.mul_zero, wrapU32_of_lt 0 (by omega), wrapU32_of_lt (c0.val * 255) (by omega),
      wrapU32_of_lt _ (by omega)]
    simp only [Fin.ofNat, Fin.val_mk]
    omega
  unfold computeAlpha
  simp only [ha, hf, key]

/-! ## Pixel access and compositing on a canvas -/

theorem GetRGB_isSome (d : Canvas) (x y : Int) (hs : d.Sized) (hl : d.LenIsInt)
    (hx0 : 0 ≤ x) (hx : x < d.Width) (hy0 : 0 ≤ y) (hy : y < d.Height) :
    ∃ p, d.GetRGB x y = some p := by
  obtain ⟨_, _, _, hlt⟩ := index_in_range d x y hs hl hx0 hx hy0 hy
  rw [GetRGB_eq d x y hs hl hx0 hx hy0 hy]
  exact readCell_isSome d.Buffer (cellOf d x y) hlt

/-- C1: for every canvas whose buffer has length `Width*Height*3` (a Go slice,
so of `int` length), every pixel
`0 ≤ x < Width`, `0 ≤ y < Height` and all bytes `r g b`, `SetRGB(x,y,r,g,b)`
completes and `GetRGB(x,y)` on the result returns exactly `(r,g,b)`. -/
theorem getRGB_after_setRGB (d : Canvas) (x y : Int) (r g b : Byte)
    (hs : d.Sized) (hl : d.LenIsInt)
    (hx0 : 0 ≤ x) (hx : x < d.Width) (hy0 : 0 ≤ y) (hy : y < d.Height) :
    ∃ d2, d.SetRGB x y r g b = some d2 ∧ d2.GetRGB x y = some (r, g, b) := by
  obtain ⟨d2, h1, _, _, h2⟩ := SetRGB_step d x y r g b hs hl hx0 hx hy0 hy
  obtain ⟨bg, hbg⟩ := GetRGB_isSome d x y hs hl hx0 hx hy0 hy
  refine ⟨d2, h1, ?_⟩
  rw [(h2 x y hx0 hx hy0 hy).1 ⟨rfl, rfl⟩, hbg]
  rfl

theorem getRGB_after_setRGB_witness :
    sampleCanvas.Sized ∧ sampleCanvas.LenIsInt ∧
    (0 : Int) ≤ 1 ∧ (1 : Int) < sampleCanvas.Width ∧ (0 : Int) ≤ 1 ∧ (1 : Int) < sampleCanvas.Height ∧
    ∃ d2, sampleCanvas.SetRGB 1 1 200 100 50 = some d2 ∧ d2.GetRGB 1 1 = some (200, 100, 50) :=
  ⟨by decide, by decide, by decide, by decide, by decide, by decide,
    getRGB_after_setRGB sampleCanvas 1 1 200 100 50 (by decide) (by decide) (by decide)
      (by decide) (by decide) (by decide)⟩

/-- Compositing an opaque colour over an in-range pixel. -/
theorem SetColor_opaque (d : Canvas) (x y : Int) (c : Color) (r g b : Byte)
    (hs : d.Sized) (hl : d.LenIsInt)
    (hx0 : 0 ≤ x) (hx : x < d.Width) (hy0 : 0 ≤ y) (hy : y < d.Height)
    (ha : c.a.val >>> 8 = 255) (hr : c.r.val >>> 8 = r.val) (hg : c.g.val >>> 8 = g.val)
    (hb : c.b.val >>> 8 = b.val) :
    ∃ d2, d.SetColor x y c = some d2 ∧ d2.GetRGB x y = some (r, g, b) := by
  obtain ⟨d2, bg, h1, h2, _, _, h3⟩ := SetColor_step d x y c hs hl hx0 hx hy0 hy
  refine ⟨d2, h2, ?_⟩
  rw [(h3 x y hx0 hx hy0 hy).1 ⟨rfl, rfl⟩, h1]
  simp only [Option.map_some', computeAlpha_opaque c r g b _ _ _ ha hr hg hb]

/-- C3: for every in-range pixel of a sized canvas, whatever is stored there, and
every colour with 8-bit channels `(r,g,b)` and alpha `255`, `SetColor` completes
and `GetRGB` then returns exactly `(r,g,b)`.  Stated for any `color.Color` whose
`RGBA()` high bytes are `r, g, b, 255`, and for the two Go representations
`color.NRGBA{r,g,b,255}` and `color.RGBA{r,g,b,255}`. -/
theorem setColor_opaque_replaces (d : Canvas) (x y : Int) (r g b : Byte)
    (hs : d.Sized) (hl : d.LenIsInt)
    (hx0 : 0 ≤ x) (hx : x < d.Width) (hy0 : 0 ≤ y) (hy : y < d.Height) :
    (∀ c : Color, c.a.val >>> 8 = 255 → c.r.val >>> 8 = r.val → c.g.val >>> 8 = g.val →
      c.b.val >>> 8 = b.val →
      ∃ d2, d.SetColor x y c = some d2 ∧ d2.GetRGB x y = some (r, g, b)) ∧
    (∃ d2, d.SetColor x y (colorNRGBA r g b 255) = some d2 ∧ d2.GetRGB x y = some (r, g, b)) ∧
    (∃ d2, d.SetColor x y (colorRGBA r g b 255) = some d2 ∧ d2.GetRGB x y = some (r, g, b)) := by
  refine ⟨?_, ?_, ?_⟩
  · intro c ha hr hg hb
    exact SetColor_opaque d x y c r g b hs hl hx0 hx hy0 hy ha hr hg hb
  · exact SetColor_opaque d x y _ r g b hs hl hx0 hx hy0 hy (rgba_channel 255)
      (nrgba_opaque_channel r) (nrgba_opaque_channel g) (nrgba_opaque_channel b)
  · exact SetColor_opaque d x y _ r g b hs hl hx0 hx hy0 hy (rgba_channel 255)
      (rgba_channel r) (rgba_channel g) (rgba_channel b)

theorem setColor_opaque_replaces_witness :
    sampleCanvas.Sized ∧ sampleCanvas.LenIsInt ∧
    (0 : Int) ≤ 1 ∧ (1 : Int) < sampleCanvas.Width ∧
    (0 : Int) ≤ 0 ∧ (0 : Int) < sampleCanvas.Height ∧
    (∃ d2, sampleCanvas.SetColor 1 0 (colorNRGBA 200 100 50 255) = some d2 ∧
      d2.GetRGB 1 0 = some (200, 100, 50)) ∧
    (∃ d2, sampleCanvas.SetColor 1 0 (colorRGBA 200 100 50 255) = some d2 ∧
      d2.GetRGB 1 0 = some (200, 100, 50)) :=
  ⟨by decide, by decide, by decide, by decide, by decide, by decide,
    (setColor_opaque_replaces sampleCanvas 1 0 200 100 50 (by decide) (by decide) (by decide)
      (by decide) (by decide) (by decide)).2⟩

/-- Compositing a fully transparent colour over an in-range pixel. -/
theorem SetColor_transparent (d : Canvas) (x y : Int) (c : Color)
    (hs : d.Sized) (hl : d.LenIsInt)
    (hx0 : 0 ≤ x) (hx : x < d.Width) (hy0 : 0 ≤ y) (hy : y < d.Height)
    (ha : c.a.val >>> 8 = 0) :
    d.SetColor x y c = some d := by
  obtain ⟨d2, bg, h1, h2, h3, hsh, _⟩ := SetColor_step d x y c hs hl hx0 hx hy0 hy
  rw [h2]
  rw [computeAlpha_transparent c _ _ _ ha] at h3
  rw [GetRGB_eq d x y hs hl hx0 hx hy0 hy] at h1
  rw [writeCell_readCell _ _ _ _ _ h1] at h3
  obtain ⟨a1, a2, a3, a4, a5, a6, _⟩ := hsh
  cases d2
  cases d
  simp only at a1 a2 a3 a4 a5 a6 h3
  simp only [a1, a2, a3, a4, a5, a6, h3]

/-- C4: for every in-range pixel of a sized canvas and every colour whose alpha
is `0` (high byte of the `RGBA()` alpha; the colour channels are arbitrary),
`SetColor` completes, the pixel read by `GetRGB` is what it was, and the whole
canvas, buffer included, is unchanged.  Stated for any `color.Color`, and for
`color.NRGBA{R,G,B,0}` and `color.RGBA{R,G,B,0}`. -/
theorem setColor_transparent_keeps (d : Canvas) (x y : Int)
    (hs : d.Sized) (hl : d.LenIsInt)
    (hx0 : 0 ≤ x) (hx : x < d.Width) (hy0 : 0 ≤ y) (hy : y < d.Height) :
    (∃ bg, d.GetRGB x y = some bg) ∧
    (∀ c : Color, c.a.val >>> 8 = 0 →
      ∃ d2, d.SetColor x y c = some d2 ∧ d2.GetRGB x y = d.GetRGB x y ∧
        d2.Buffer = d.Buffer ∧ d2 = d) ∧
    (∀ R G B : Byte, ∃ d2, d.SetColor x y (colorNRGBA R G B 0) = some d2 ∧
        d2.GetRGB x y = d.GetRGB x y ∧ d2.Buffer = d.Buffer ∧ d2 = d) ∧
    (∀ R G B : Byte, ∃ d2, d.SetColor x y (colorRGBA R G B 0) = some d2 ∧
        d2.GetRGB x y = d.GetRGB x y ∧ d2.Buffer = d.Buffer ∧ d2 = d) := by
  refine ⟨GetRGB_isSome d x y hs hl hx0 hx hy0 hy, ?_, ?_, ?_⟩
  · intro c ha
    exact ⟨d, SetColor_transparent d x y c hs hl hx0 hx hy0 hy ha, rfl, rfl, rfl⟩
  · intro R G B
    exact ⟨d, SetColor_transparent d x y _ hs hl hx0 hx hy0 hy (rgba_channel 0), rfl, rfl, rfl⟩
  · intro R G B
    exact ⟨d, SetColor_transparent d x y _ hs hl hx0 hx hy0 hy (rgba_channel 0), rfl, rfl, rfl⟩

theorem setColor_transparent_keeps_witness :
    sampleCanvas.Sized ∧ sampleCanvas.LenIsInt ∧
    (0 : Int) ≤ 1 ∧ (1 : Int) < sampleCanvas.Width ∧
    (0 : Int) ≤ 1 ∧ (1 : Int) < sampleCanvas.Height ∧
    ∃ d2, sampleCanvas.SetColor 1 1 (colorRGBA 9 8 7 0) = some d2 ∧
      d2.GetRGB 1 1 = sampleCanvas.GetRGB 1 1 ∧ d2.Buffer = sampleCanvas.Buffer ∧
      d2 = sampleCanvas :=
  ⟨by decide, by decide, by decide, by decide, by decide, by decide,
    (setColor_transparent_keeps sampleCanvas 1 1 (by decide) (by decide) (by decide)
      (by decide) (by decide) (by decide)).2.2.2 9 8 7⟩

/-- C5: compositing red at alpha 128 over a black pixel.  With
`color.RGBA{255,0,0,128}` the pixel becomes `(128,0,0)`; with the straight-alpha
`color.NRGBA{255,0,0,128}` it becomes `(64,0,0)`, because `RGBA()` already
returns the channel multiplied by alpha and `computeAlpha` multiplies by alpha
once more. -/
theorem setColor_half_alpha_red :
    (({ X0 := 0, Y0 := 0, X1 := 0, Y1 := 0, Width := 1, Height := 1, Buffer := [0, 0, 0] } :
        Canvas).SetColor 0 0 (colorNRGBA 255 0 0 128)).bind (fun d => d.GetRGB 0 0)
      = some (64, 0, 0) ∧
    (({ X0 := 0, Y0 := 0, X1 := 0, Y1 := 0, Width := 1, Height := 1, Buffer := [0, 0, 0] } :
        Canvas).SetColor 0 0 (colorRGBA 255 0 0 128)).bind (fun d => d.GetRGB 0 0)
      = some (128, 0, 0) := by
  decide

/-! ## Clearing a canvas -/

/-- Every byte of a sized canvas lies in the cell of an in-range pixel. -/
theorem byte_in_cell (d : Canvas) (hs : d.Sized) (hw : 0 ≤ d.Width)
    (k : Nat) (hk : k < d.Buffer.length) :
    ∃ x y : Int, 0 ≤ x ∧ x < d.Width ∧ 0 ≤ y ∧ y < d.Height ∧ cellOf d x y = 3 * (k / 3) := by
  unfold Canvas.Sized at hs
  have hpos : 0 < d.Width * d.Height := by omega
  have hW : 0 < d.Width := by
    rcases eq_or_lt_of_le hw with h | h
    · rw [← h] at hpos; simp at hpos
    · exact h
  have hp : ((k / 3 : Nat) : Int) < d.Width * d.Height := by omega
  refine ⟨((k / 3 : Nat) : Int) % d.Width, ((k / 3 : Nat) : Int) / d.Width,
    Int.emod_nonneg _ (by omega), Int.emod_lt_of_pos _ hW,
    Int.ediv_nonneg (by omega) hw, Int.ediv_lt_of_lt_mul hW (by rw [mul_comm]; exact hp), ?_⟩
  have e := Int.emod_add_ediv ((k / 3 : Nat) : Int) d.Width
  have e2 : ((k / 3 : Nat) : Int) / d.Width * d.Width + ((k / 3 : Nat) : Int) % d.Width
      = ((k / 3 : Nat) : Int) := by
    rw [mul_comm, add_comm]; exact e
  unfold cellOf
  rw [e2]
  omega

/-- C7: for every canvas with `Width ≥ 0`, `Height ≥ 0` and a buffer of length
`Width*Height*3`, `Canvas.Clear` completes; afterwards `GetRGB(x,y) = (0,0,0)`
for every in-range pixel, every byte of the buffer is `0`, and the buffer
length, `Width`, `Height` and the bound rectangle are unchanged. -/
theorem canvas_clear_blackens (d : Canvas) (hs : d.Sized) (hl : d.LenIsInt)
    (hw : 0 ≤ d.Width) (_hh : 0 ≤ d.Height) :
    ∃ d2, d.Clear = some d2 ∧
      (∀ x y : Int, 0 ≤ x → x < d.Width → 0 ≤ y → y < d.Height →
        d2.GetRGB x y = some (0, 0, 0)) ∧
      (∀ k : Nat, k < d2.Buffer.length → d2.Buffer[k]? = some 0) ∧
      d2.Buffer.length = d.Buffer.length ∧ d2.Width = d.Width ∧ d2.Height = d.Height ∧
      d2.X0 = d.X0 ∧ d2.Y0 = d.Y0 ∧ d2.X1 = d.X1 ∧ d2.Y1 = d.Y1 := by
  obtain ⟨d2, h1, hsh, h2⟩ := Clear_step d hs hl
  have hpix : ∀ x y : Int, 0 ≤ x → x < d.Width → 0 ≤ y → y < d.Height →
      d2.GetRGB x y = some (0, 0, 0) := by
    intro x y hx0 hx hy0 hy
    obtain ⟨p, hp⟩ := GetRGB_isSome d x y hs hl hx0 hx hy0 hy
    rw [(h2 x y hx0 hx hy0 hy).1 ⟨hx0, hx, hy0, hy⟩, hp]
    rfl
  obtain ⟨a1, a2, a3, a4, a5, a6, a7⟩ := hsh
  have hsh : SameShape d d2 := ⟨a1, a2, a3, a4, a5, a6, a7⟩
  refine ⟨d2, h1, hpix, ?_, a7, a5, a6, a1, a2, a3, a4⟩
  intro k hk
  obtain ⟨x, y, hx0, hx, hy0, hy, hc⟩ := byte_in_cell d2 (hsh.sized hs) (by omega) k hk
  have hg := hpix x y hx0 (by omega) hy0 (by omega)
  rw [GetRGB_eq d2 x y (hsh.sized hs) (hsh.lenIsInt hl) hx0 hx hy0 hy, hc] at hg
  unfold readCell at hg
  cases e0 : d2.Buffer[3 * (k / 3)]? with
  | none => simp [e0] at hg
  | some v0 =>
    cases e1 : d2.Buffer[3 * (k / 3) + 1]? with
    | none => simp [e0, e1] at hg
    | some v1 =>
      cases e2 : d2.Buffer[3 * (k / 3) + 2]? with
      | none => simp [e0, e1, e2] at hg
      | some v2 =>
        simp [e0, e1, e2] at hg
        obtain ⟨rfl, rfl, rfl⟩ := hg
        have hk3 : k = 3 * (k / 3) ∨ k = 3 * (k / 3) + 1 ∨ k = 3 * (k / 3) + 2 := by omega
        rcases hk3 with h | h | h
        · rw [h]; exact e0
        · rw [h]; exact e1
        · rw [h]; exact e2

theorem canvas_clear_blackens_witness :
    sampleCanvas.Sized ∧ sampleCanvas.LenIsInt ∧
    (0 : Int) ≤ sampleCanvas.Width ∧ (0 : Int) ≤ sampleCanvas.Height ∧
    ∃ d2, sampleCanvas.Clear = some d2 ∧
      (∀ x y : Int, 0 ≤ x → x < sampleCanvas.Width → 0 ≤ y → y < sampleCanvas.Height →
        d2.GetRGB x y = some (0, 0, 0)) ∧
      (∀ k : Nat, k < d2.Buffer.length → d2.Buffer[k]? = some 0) ∧
      d2.Buffer.length = sampleCanvas.Buffer.length ∧ d2.Width = sampleCanvas.Width ∧
      d2.Height = sampleCanvas.Height ∧
      d2.X0 = sampleCanvas.X0 ∧ d2.Y0 = sampleCanvas.Y0 ∧ d2.X1 = sampleCanvas.X1 ∧
      d2.Y1 = sampleCanvas.Y1 :=
  ⟨by decide, by decide, by decide, by decide,
    canvas_clear_blackens sampleCanvas (by decide) (by decide) (by decide) (by decide)⟩

/-! ## Orientation and the full-screen canvas -/

set_option maxRecDepth 100000 in
theorem direction_mod_facts : ∀ d : Byte,
    (d % 4) % 4 = d % 4 ∧ (d % 4 = 0 ↔ d.val % 4 = 0) ∧
    (d % 4 = 0 ∨ d % 4 = 1 ∨ (d % 4 ≠ 0 ∧ d % 4 ≠ 1)) := by
  decide

/-- C8: for every selector `d : uint8`, after `LcdDirection(d)` the driver's
`Size()` is `(320,480)` when `d mod 4 = 0` and `(480,320)` otherwise (that is,
when `d mod 4` is 1, 2 or 3); `LcdDirection(d)` and `LcdDirection(d mod 4)`
leave the same state and emit the same events. -/
theorem lcdDirection_size (s : ILI9488) (d : Byte) :
    (Size (LcdDirection s d).state).result
      = (if d.val % 4 = 0 then { X := 320, Y := 480 } else { X := 480, Y := 320 }) ∧
    (LcdDirection s d).state = (LcdDirection s (d % 4)).state ∧
    (LcdDirection s d).trace = (LcdDirection s (d % 4)).trace := by
  obtain ⟨h1, h2, h3⟩ := direction_mod_facts d
  refine ⟨?_, ?_, ?_⟩
  · by_cases h : d.val % 4 = 0
    · have h0 : d % 4 = 0 := h2.2 h
      simp [LcdDirection, Effect.andThen, Command, SendData, ExchangeData, Size, h, h0,
        LCD_W, LCD_H]
    · have h0 : ¬ d % 4 = 0 := fun k => h (h2.1 k)
      by_cases h4 : d % 4 = 1
      · simp [LcdDirection, Effect.andThen, Command, SendData, ExchangeData, Size, h, h4,
          LCD_W, LCD_H]
      · simp [LcdDirection, Effect.andThen, Command, SendData, ExchangeData, Size, h, h0, h4,
          LCD_W, LCD_H]
  · unfold LcdDirection
    simp only [h1]
  · unfold LcdDirection
    simp only [h1]

/-- C9: for every driver state with width `w ≥ 0` and height `h ≥ 0` (Go `int`s
with `w*h*3` a Go `int`), `GetFullScreenCanvas` returns a canvas with rectangle
`(0, 0, w-1, h-1)`, `Width = w`, `Height = h` and a buffer of length `w*h*3`
whose bytes are all `0`; it emits no event and leaves the driver state as it
was. -/
theorem getFullScreenCanvas_shape (s : ILI9488)
    (hw : 0 ≤ s.width) (hh : 0 ≤ s.height)
    (hwi : s.width < 9223372036854775808) (hhi : s.height < 9223372036854775808)
    (hlen : s.width * s.height * 3 < 9223372036854775808) :
    ∃ c, (GetFullScreenCanvas s).result = some c ∧
      c.X0 = 0 ∧ c.Y0 = 0 ∧ c.X1 = s.width - 1 ∧ c.Y1 = s.height - 1 ∧
      c.Width = s.width ∧ c.Height = s.height ∧
      (c.Buffer.length : Int) = s.width * s.height * 3 ∧
      (∀ b ∈ c.Buffer, b = 0) ∧
      (GetFullScreenCanvas s).trace = [] ∧ (GetFullScreenCanvas s).state = s := by
  have hp : 0 ≤ s.width * s.height := mul_nonneg hw hh
  have e1 : wrapInt (s.width * s.height) = s.width * s.height :=
    wrapInt_of_range _ (by omega) (by omega)
  have e2 : wrapInt (s.width * s.height * 3) = s.width * s.height * 3 :=
    wrapInt_of_range _ (by omega) (by omega)
  have e3 : wrapInt (s.width - 1) = s.width - 1 := wrapInt_of_range _ (by omega) (by omega)
  have e4 : wrapInt (s.height - 1) = s.height - 1 := wrapInt_of_range _ (by omega) (by omega)
  have hn : (0 : Int) ≤ s.width * s.height * 3 := by omega
  refine ⟨{ X0 := 0, Y0 := 0, X1 := wrapInt (s.width - 1), Y1 := wrapInt (s.height - 1),
            Width := s.width, Height := s.height,
            Buffer := List.replicate (s.width * s.height * 3).toNat 0 },
    ?_, rfl, rfl, e3, e4, rfl, rfl, ?_, ?_, rfl, rfl⟩
  · simp only [GetFullScreenCanvas, makeBytes, e1, e2, hn, if_true, Option.map_some']
  · simp only [List.length_replicate]
    omega
  · intro b hb
    exact List.eq_of_mem_replicate hb

theorem getFullScreenCanvas_shape_witness :
    ∃ c, (GetFullScreenCanvas { width := 320, height := 480, xStart := 0, yStart := 0 }).result
        = some c ∧
      c.X0 = 0 ∧ c.Y0 = 0 ∧ c.X1 = 320 - 1 ∧ c.Y1 = 480 - 1 ∧
      c.Width = 320 ∧ c.Height = 480 ∧
      (c.Buffer.length : Int) = 320 * 480 * 3 ∧
      (∀ b ∈ c.Buffer, b = 0) ∧
      (GetFullScreenCanvas { width := 320, height := 480, xStart := 0, yStart := 0 }).trace = [] ∧
      (GetFullScreenCanvas { width := 320, height := 480, xStart := 0, yStart := 0 }).state
        = { width := 320, height := 480, xStart := 0, yStart := 0 } :=
  getFullScreenCanvas_shape { width := 320, height := 480, xStart := 0, yStart := 0 }
    (by decide) (by decide) (by decide) (by decide) (by decide)

/-! ## Drawing an image -/

/-- C10: for every canvas with `len(Buffer) = Width*Height*3` and every image
whose bounds lie inside `[0,Width) × [0,Height)`, `DrawImage` completes and keeps
the canvas's shape; every pixel inside the image bounds then holds
`computeAlpha` of `img.At(x,y)` over the value it held before the call, and
every other pixel of the canvas holds what it held before.  The two upper-bound
hypotheses say that the bounds lie inside the canvas; the proof does not use
them, since the loops clip at the canvas. -/
theorem drawImage_inside (d : Canvas) (img : Image) (hs : d.Sized) (hl : d.LenIsInt)
    (hminx : 0 ≤ img.Bounds.Min.X) (_hmaxx : img.Bounds.Max.X ≤ d.Width)
    (hminy : 0 ≤ img.Bounds.Min.Y) (_hmaxy : img.Bounds.Max.Y ≤ d.Height) :
    ∃ d2, d.DrawImage img = some d2 ∧
      d2.Buffer.length = d.Buffer.length ∧ d2.Width = d.Width ∧ d2.Height = d.Height ∧
      d2.X0 = d.X0 ∧ d2.Y0 = d.Y0 ∧ d2.X1 = d.X1 ∧ d2.Y1 = d.Y1 ∧
      ∀ x y : Int, 0 ≤ x → x < d.Width → 0 ≤ y → y < d.Height →
        d2.GetRGB x y =
          if img.Bounds.Min.X ≤ x ∧ x < img.Bounds.Max.X ∧
              img.Bounds.Min.Y ≤ y ∧ y < img.Bounds.Max.Y
          then (d.GetRGB x y).map (fun p => computeAlpha (img.At x y) p.1 p.2.1 p.2.2)
          else d.GetRGB x y := by
  obtain ⟨d2, h1, ⟨a1, a2, a3, a4, a5, a6, a7⟩, h2⟩ := DrawImage_step d img hs hl hminx hminy
  refine ⟨d2, h1, a7, a5, a6, a1, a2, a3, a4, ?_⟩
  intro x y hx0 hx hy0 hy
  obtain ⟨k1, k2⟩ := h2 x y hx0 hx hy0 hy
  split_ifs with h
  · exact k1 h
  · exact k2 h

theorem drawImage_inside_witness :
    sampleCanvas.Sized ∧ sampleCanvas.LenIsInt ∧
    (0 : Int) ≤ sampleImage.Bounds.Min.X ∧ sampleImage.Bounds.Max.X ≤ sampleCanvas.Width ∧
    (0 : Int) ≤ sampleImage.Bounds.Min.Y ∧ sampleImage.Bounds.Max.Y ≤ sampleCanvas.Height ∧
    ∃ d2, sampleCanvas.DrawImage sampleImage = some d2 ∧
      d2.Buffer.length = sampleCanvas.Buffer.length ∧ d2.Width = sampleCanvas.Width ∧
      d2.Height = sampleCanvas.Height ∧
      d2.X0 = sampleCanvas.X0 ∧ d2.Y0 = sampleCanvas.Y0 ∧ d2.X1 = sampleCanvas.X1 ∧
      d2.Y1 = sampleCanvas.Y1 ∧
      ∀ x y : Int, 0 ≤ x → x < sampleCanvas.Width → 0 ≤ y → y < sampleCanvas.Height →
        d2.GetRGB x y =
          if sampleImage.Bounds.Min.X ≤ x ∧ x < sampleImage.Bounds.Max.X ∧
              sampleImage.Bounds.Min.Y ≤ y ∧ y < sampleImage.Bounds.Max.Y
          then (sampleCanvas.GetRGB x y).map
            (fun p => computeAlpha (sampleImage.At x y) p.1 p.2.1 p.2.2)
          else sampleCanvas.GetRGB x y :=
  ⟨by decide, by decide, by decide, by decide, by decide, by decide,
    drawImage_inside sampleCanvas sampleImage (by decide) (by decide) (by decide) (by decide)
      (by decide) (by decide)⟩

/-! ## Drawing an image whose bounds start outside the canvas -/

/-- C11: the claim fails where the image bounds start at a negative coordinate,
since `DrawImage` clips only at `Width` and `Height`.  On the 2×2 sample canvas, an
image with bounds `(0,-1)-(1,0)` makes `DrawImage` index the buffer at `-6` and
panic; an image with bounds `(-1,1)-(0,2)` makes it composite `img.At(-1,1)` into
the bytes 3..5, which are the pixel `(1,0)`, a pixel outside the image bounds
(it read `(4,5,6)` before and reads `(40,50,60)` after). -/
theorem drawImage_negative_min :
    sampleCanvas.Sized ∧
    sampleCanvas.DrawImage imageAbove = none ∧
    (sampleCanvas.DrawImage imageLeft).map (fun d => d.Buffer)
      = some [1, 2, 3, 40, 50, 60, 7, 8, 9, 10, 11, 12] ∧
    sampleCanvas.GetRGB 1 0 = some (4, 5, 6) ∧
    (sampleCanvas.DrawImage imageLeft).bind (fun d => d.GetRGB 1 0) = some (40, 50, 60) ∧
    ¬ (imageLeft.Bounds.Min.X ≤ 1 ∧ 1 < imageLeft.Bounds.Max.X ∧
       imageLeft.Bounds.Min.Y ≤ 0 ∧ 0 < imageLeft.Bounds.Max.Y) := by
  decide

/-! ## Flushing a canvas -/

/-- C12: for every canvas, driver state and byte slice `b`, `FlushDirectly(b)`
emits exactly the events of `SetWindow(X0,Y0,X1,Y1)` followed by one framed data
transmission whose payload is the whole of `b`; the canvas after the call is the
canvas before it (buffer and rectangle included) and the driver's fields are
unchanged.  `Flush()` emits exactly what `FlushDirectly(Buffer)` emits and leaves
canvas and driver unchanged too. -/
theorem flushDirectly_emits (d : Canvas) (s : ILI9488) (b : List Byte) :
    (d.FlushDirectly s b).trace =
      (SetWindow s d.X0 d.Y0 d.X1 d.Y1).trace ++
        [Event.low Line.cs, Event.high Line.dc, Event.spiTransmit b, Event.high Line.cs] ∧
    (d.FlushDirectly s b).result = d ∧
    (d.FlushDirectly s b).state = s ∧
    (d.Flush s).trace = (d.FlushDirectly s d.Buffer).trace ∧
    (d.Flush s).result = d ∧
    (d.Flush s).state = s := by
  refine ⟨rfl, rfl, rfl, rfl, rfl, rfl⟩

/-! ## The frame of a pixel write -/

theorem getElem?_writeCell_other (buf : List Byte) (n k : Nat) (r g b : Byte)
    (h0 : k ≠ n) (h1 : k ≠ n + 1) (h2 : k ≠ n + 2) :
    (writeCell buf n r g b)[k]? = buf[k]? := by
  unfold writeCell
  rw [List.getElem?_set_ne (by omega), List.getElem?_set_ne (by omega),
    List.getElem?_set_ne (by omega)]

/-- C20: for every canvas with `len(Buffer) = Width*Height*3` and two distinct
in-range pixels `(x,y)` and `(x2,y2)`, the byte offsets of the two pixels are at
least three apart, so their cells do not overlap; `SetRGB(x,y,r,g,b)` and
`SetColor(x,y,c)` complete, leave `GetRGB(x2,y2)` as it was, keep the buffer
length, and leave every byte other than the three of the cell of `(x,y)` as it
was. -/
theorem pixel_write_frame (d : Canvas) (x y x2 y2 : Int) (hs : d.Sized) (hl : d.LenIsInt)
    (hx0 : 0 ≤ x) (hx : x < d.Width) (hy0 : 0 ≤ y) (hy : y < d.Height)
    (hx20 : 0 ≤ x2) (hx2 : x2 < d.Width) (hy20 : 0 ≤ y2) (hy2 : y2 < d.Height)
    (hne : ¬ (x2 = x ∧ y2 = y)) :
    (d.getBufferBeginIndex x y + 3 ≤ d.getBufferBeginIndex x2 y2 ∨
      d.getBufferBeginIndex x2 y2 + 3 ≤ d.getBufferBeginIndex x y) ∧
    (∀ r g b : Byte, ∃ d2, d.SetRGB x y r g b = some d2 ∧
      d2.GetRGB x2 y2 = d.GetRGB x2 y2 ∧
      d2.Buffer.length = d.Buffer.length ∧
      ∀ k : Nat, (k : Int) ≠ d.getBufferBeginIndex x y →
        (k : Int) ≠ d.getBufferBeginIndex x y + 1 →
        (k : Int) ≠ d.getBufferBeginIndex x y + 2 → d2.Buffer[k]? = d.Buffer[k]?) ∧
    (∀ c : Color, ∃ d2, d.SetColor x y c = some d2 ∧
      d2.GetRGB x2 y2 = d.GetRGB x2 y2 ∧
      d2.Buffer.length = d.Buffer.length ∧
      ∀ k : Nat, (k : Int) ≠ d.getBufferBeginIndex x y →
        (k : Int) ≠ d.getBufferBeginIndex x y + 1 →
        (k : Int) ≠ d.getBufferBeginIndex x y + 2 → d2.Buffer[k]? = d.Buffer[k]?) := by
  obtain ⟨e0, _, _, _⟩ := index_in_range d x y hs hl hx0 hx hy0 hy
  obtain ⟨e0', _, _, _⟩ := index_in_range d x2 y2 hs hl hx20 hx2 hy20 hy2
  have hap := cellOf_apart d x y x2 y2 hx0 hx hy0 hx20 hx2 hy20 hne
  refine ⟨?_, ?_, ?_⟩
  · rw [e0, e0']
    omega
  · intro r g b
    obtain ⟨d2, h1, h2, hsh, h3⟩ := SetRGB_step d x y r g b hs hl hx0 hx hy0 hy
    refine ⟨d2, h1, (h3 x2 y2 hx20 hx2 hy20 hy2).2 hne, hsh.2.2.2.2.2.2, ?_⟩
    intro k k0 k1 k2
    rw [h2]
    rw [e0] at k0 k1 k2
    exact getElem?_writeCell_other _ _ _ _ _ _ (by omega) (by omega) (by omega)
  · intro c
    obtain ⟨d2, bg, _, h1, h2, hsh, h3⟩ := SetColor_step d x y c hs hl hx0 hx hy0 hy
    refine ⟨d2, h1, (h3 x2 y2 hx20 hx2 hy20 hy2).2 hne, hsh.2.2.2.2.2.2, ?_⟩
    intro k k0 k1 k2
    rw [h2]
    rw [e0] at k0 k1 k2
    exact getElem?_writeCell_other _ _ _ _ _ _ (by omega) (by omega) (by omega)

theorem pixel_write_frame_witness :
    sampleCanvas.Sized ∧ sampleCanvas.LenIsInt ∧
    (0 : Int) ≤ 1 ∧ (1 : Int) < sampleCanvas.Width ∧ (0 : Int) ≤ 0 ∧ (0 : Int) < sampleCanvas.Height ∧
    (0 : Int) ≤ 0 ∧ (0 : Int) < sampleCanvas.Width ∧ (0 : Int) ≤ 1 ∧ (1 : Int) < sampleCanvas.Height ∧
    ¬ ((0 : Int) = 1 ∧ (1 : Int) = 0) ∧
    (∃ d2, sampleCanvas.SetRGB 1 0 200 100 50 = some d2 ∧
      d2.GetRGB 0 1 = sampleCanvas.GetRGB 0 1 ∧
      d2.Buffer.length = sampleCanvas.Buffer.length ∧
      ∀ k : Nat, (k : Int) ≠ sampleCanvas.getBufferBeginIndex 1 0 →
        (k : Int) ≠ sampleCanvas.getBufferBeginIndex 1 0 + 1 →
        (k : Int) ≠ sampleCanvas.getBufferBeginIndex 1 0 + 2 →
        d2.Buffer[k]? = sampleCanvas.Buffer[k]?) :=
  ⟨by decide, by decide, by decide, by decide, by decide, by decide, by decide, by decide,
    by decide, by decide, by decide,
    (pixel_write_frame sampleCanvas 1 0 0 1 (by decide) (by decide) (by decide) (by decide)
      (by decide) (by decide) (by decide) (by decide) (by decide) (by decide)
      (by decide)).2.1 200 100 50⟩

/-! ## Orientation: the three behaviours -/

set_option maxRecDepth 100000 in
theorem direction_mod_one : ∀ e : Byte, (e % 4 = 1 ↔ e.val % 4 = 1) := by
  decide

/-- The three branches of `LcdDirection`, by the value of the selector modulo 4. -/
theorem lcdDirection_cases (s : ILI9488) (d : Byte) :
    (d.val % 4 = 0 → LcdDirection s d =
      { result := (), state := { s with width := 320, height := 480 },
        trace := [Event.low Line.cs, Event.low Line.dc, Event.spiTransmit [0x36],
          Event.high Line.cs, Event.low Line.cs, Event.high Line.dc,
          Event.spiTransmit [0x08], Event.high Line.cs] }) ∧
    (d.val % 4 = 1 → LcdDirection s d =
      { result := (), state := { s with width := 480, height := 320 },
        trace := [Event.low Line.cs, Event.low Line.dc, Event.spiTransmit [0x36],
          Event.high Line.cs, Event.low Line.cs, Event.high Line.dc,
          Event.spiTransmit [0x68], Event.high Line.cs] }) ∧
    (d.val % 4 ≠ 0 → d.val % 4 ≠ 1 → LcdDirection s d =
      { result := (), state := { s with width := 480, height := 320 },
        trace := [Event.low Line.cs, Event.low Line.dc, Event.spiTransmit [0x36],
          Event.high Line.cs, Event.low Line.cs, Event.high Line.dc,
          Event.spiTransmit [0xA8], Event.high Line.cs] }) := by
  obtain ⟨_, h2, _⟩ := direction_mod_facts d
  have h3 := direction_mod_one d
  have b0 : (Fin.ofNat ((1 <<< 3) ||| (0 <<< 6) ||| (0 <<< 7)) : Byte) = 0x08 := by decide
  have b1 : (Fin.ofNat ((1 <<< 3) ||| (0 <<< 7) ||| (1 <<< 6) ||| (1 <<< 5)) : Byte) = 0x68 := by
    decide
  have b2 : (Fin.ofNat ((1 <<< 3) ||| (1 <<< 7) ||| (1 <<< 5)) : Byte) = 0xA8 := by decide
  refine ⟨?_, ?_, ?_⟩
  · intro h
    have h0 : d % 4 = 0 := h2.2 h
    unfold LcdDirection
    simp only [h0, if_true, b0]
    rfl
  · intro h
    have h1 : d % 4 = 1 := h3.2 h
    have h0 : ¬ d % 4 = 0 := by rw [h1]; decide
    unfold LcdDirection
    simp only [h0, h1, if_true, if_false, b1]
    rfl
  · intro h h4
    have h0 : ¬ d % 4 = 0 := fun k => h (h2.1 k)
    have h1 : ¬ d % 4 = 1 := fun k => h4 (h3.1 k)
    unfold LcdDirection
    simp only [h0, h1, if_false, b2]
    rfl

/-- C16: for every selector `d`, `LcdDirection(d)` emits exactly two framed
transmissions: command `[0x36]`, then one data byte, which is `0x08` when
`d mod 4 = 0`, `0x68` when `d mod 4 = 1` and `0xA8` otherwise; bit 3 (BGR) is set
in all three.  The size becomes `(320,480)` when `d mod 4 = 0` and `(480,320)`
otherwise.  The three data bytes are pairwise different, so the outcomes for
selectors 0, 1 and 2 are pairwise different, while selectors 2 and 3 give the
same events and the same state. -/
theorem lcdDirection_emits (s : ILI9488) (d : Byte) :
    (LcdDirection s d).trace =
      [Event.low Line.cs, Event.low Line.dc, Event.spiTransmit [0x36], Event.high Line.cs,
       Event.low Line.cs, Event.high Line.dc,
       Event.spiTransmit [if d.val % 4 = 0 then 0x08 else if d.val % 4 = 1 then 0x68 else 0xA8],
       Event.high Line.cs] ∧
    ((LcdDirection s d).state.width, (LcdDirection s d).state.height)
      = (if d.val % 4 = 0 then (320, 480) else (480, 320)) ∧
    (Nat.testBit 0x08 3 = true ∧ Nat.testBit 0x68 3 = true ∧ Nat.testBit 0xA8 3 = true) ∧
    ((0x08 : Byte) ≠ 0x68 ∧ (0x08 : Byte) ≠ 0xA8 ∧ (0x68 : Byte) ≠ 0xA8) ∧
    (LcdDirection s 0).trace ≠ (LcdDirection s 1).trace ∧
    (LcdDirection s 0).trace ≠ (LcdDirection s 2).trace ∧
    (LcdDirection s 1).trace ≠ (LcdDirection s 2).trace ∧
    (LcdDirection s 0).state.width ≠ (LcdDirection s 1).state.width ∧
    (LcdDirection s 0).state.width ≠ (LcdDirection s 2).state.width ∧
    (LcdDirection s 2).trace = (LcdDirection s 3).trace ∧
    (LcdDirection s 2).state = (LcdDirection s 3).state := by
  obtain ⟨c0, c1, c2⟩ := lcdDirection_cases s d
  have e0 := (lcdDirection_cases s 0).1 (by decide)
  have e1 := (lcdDirection_cases s 1).2.1 (by decide)
  have e2 := (lcdDirection_cases s 2).2.2 (by decide) (by decide)
  have e3 := (lcdDirection_cases s 3).2.2 (by decide) (by decide)
  refine ⟨?_, ?_, by decide, by decide, ?_, ?_, ?_, ?_, ?_, ?_, ?_⟩
  · by_cases h : d.val % 4 = 0
    · rw [c0 h]; simp [h]
    · by_cases h4 : d.val % 4 = 1
      · rw [c1 h4]; simp [h4]
      · rw [c2 h h4]; simp [h, h4]
  · by_cases h : d.val % 4 = 0
    · rw [c0 h]; simp [h]
    · by_cases h4 : d.val % 4 = 1
      · rw [c1 h4]; simp [h4]
      · rw [c2 h h4]; simp [h, h4]
  · rw [e0, e1]; simp
  · rw [e0, e2]; simp
  · rw [e1, e2]; simp
  · rw [e0, e1]; simp
  · rw [e0, e2]; simp
  · rw [e2, e3]
  · rw [e2, e3]

set_option maxRecDepth 100000 in
/-- C17, as stated, fails: `LcdDirection(1)` sends the data byte `0x68`, and no
byte it sends has bit 3 (BGR), bit 7 (MY) and bit 5 (MV) set and bit 6 (MX)
clear, which is what the comment on that line describes. -/
theorem lcdDirection_one_not_as_commented :
    (LcdDirection { width := 320, height := 480, xStart := 0, yStart := 0 } 1).trace =
      [Event.low Line.cs, Event.low Line.dc, Event.spiTransmit [0x36], Event.high Line.cs,
       Event.low Line.cs, Event.high Line.dc, Event.spiTransmit [0x68], Event.high Line.cs] ∧
    ¬ ∃ b : Byte,
      (LcdDirection { width := 320, height := 480, xStart := 0, yStart := 0 } 1).trace =
        [Event.low Line.cs, Event.low Line.dc, Event.spiTransmit [0x36], Event.high Line.cs,
         Event.low Line.cs, Event.high Line.dc, Event.spiTransmit [b], Event.high Line.cs] ∧
      Nat.testBit b.val 3 = true ∧ Nat.testBit b.val 7 = true ∧
      Nat.testBit b.val 6 = false ∧ Nat.testBit b.val 5 = true := by
  have e := (lcdDirection_cases { width := 320, height := 480, xStart := 0, yStart := 0 } 1).2.1
    (by decide)
  rw [e]
  refine ⟨rfl, ?_⟩
  rintro ⟨b, ht, _, h7, _, _⟩
  simp only [List.cons.injEq, Event.spiTransmit.injEq, and_true, true_and] at ht
  subst ht
  revert h7
  decide

/-- C17, amended: with the bit positions of the 180°/270° case (BGR = bit 3,
MV = bit 5, MX = bit 6, MY = bit 7), the data byte `LcdDirection(1)` sends is
`0x68`: `BGR = 1`, `MV = 1`, `MX = 1` and `MY = 0`.  The `MY==1, MX==0` of the
comment on its line describes `0xA8`, the byte of the 180°/270° case, which has
bits 3, 5 and 7 set and bit 6 clear. -/
theorem lcdDirection_one_bits (s : ILI9488) :
    (LcdDirection s 1).trace =
      [Event.low Line.cs, Event.low Line.dc, Event.spiTransmit [0x36], Event.high Line.cs,
       Event.low Line.cs, Event.high Line.dc, Event.spiTransmit [0x68], Event.high Line.cs] ∧
    Nat.testBit 0x68 3 = true ∧ Nat.testBit 0x68 5 = true ∧
    Nat.testBit 0x68 6 = true ∧ Nat.testBit 0x68 7 = false ∧
    (LcdDirection s 2).trace =
      [Event.low Line.cs, Event.low Line.dc, Event.spiTransmit [0x36], Event.high Line.cs,
       Event.low Line.cs, Event.high Line.dc, Event.spiTransmit [0xA8], Event.high Line.cs] ∧
    Nat.testBit 0xA8 3 = true ∧ Nat.testBit 0xA8 5 = true ∧
    Nat.testBit 0xA8 6 = false ∧ Nat.testBit 0xA8 7 = true := by
  have e1 := (lcdDirection_cases s 1).2.1 (by decide)
  have e2 := (lcdDirection_cases s 2).2.2 (by decide) (by decide)
  rw [e1, e2]
  refine ⟨rfl, ?_, ?_, ?_, ?_, rfl, ?_, ?_, ?_, ?_⟩ <;> decide

/-! ## The driver's fields across calls -/

/-- The driver's `Clear` assigns no field. -/
theorem Clear_state (s : ILI9488) (r g b : Byte) (e : Effect Unit)
    (h : Clear s r g b = some e) : e.state = s := by
  unfold Clear at h
  cases hm : makeBytes (wrapInt (wrapInt (s.width * s.height) * 3)) with
  | none => simp [hm] at h
  | some buf =>
    simp only [hm, Option.some_bind, Option.map_eq_some'] at h
    obtain ⟨buf2, _, rfl⟩ := h
    rfl

/-- Every call other than `LcdDirection` leaves the driver's fields as they were. -/
theorem after_other (s : ILI9488) (c : Call) (h : ∀ d, c ≠ Call.lcdDirection d) :
    c.after s = s := by
  cases c with
  | lcdDirection d => exact absurd rfl (h d)
  | clear r g b =>
    show (match Clear s r g b with
      | some e => e.state
      | none => s) = s
    cases hc : Clear s r g b with
    | none => rfl
    | some e => exact Clear_state s r g b e hc
  | _ => rfl

theorem runCalls_invariant : ∀ (calls : List Call) (s : ILI9488) (cur : Option Byte),
    (s.width, s.height) = sizeFor cur →
    (runCalls s calls).xStart = s.xStart ∧ (runCalls s calls).yStart = s.yStart ∧
    ((runCalls s calls).width, (runCalls s calls).height) = sizeFor (lastSelector cur calls) := by
  intro calls
  induction calls with
  | nil => intro s cur h; exact ⟨rfl, rfl, h⟩
  | cons c cs ih =>
    intro s cur h
    cases c with
    | lcdDirection d =>
      obtain ⟨c0, c1, c2⟩ := lcdDirection_cases s d
      have key : (LcdDirection s d).state.xStart = s.xStart ∧
          (LcdDirection s d).state.yStart = s.yStart ∧
          ((LcdDirection s d).state.width, (LcdDirection s d).state.height)
            = sizeFor (some d) := by
        unfold sizeFor
        by_cases h0 : d.val % 4 = 0
        · rw [c0 h0]; simp [h0]
        · by_cases h1 : d.val % 4 = 1
          · rw [c1 h1]; simp [h0]
          · rw [c2 h0 h1]; simp [h0]
      obtain ⟨k1, k2, k3⟩ := key
      obtain ⟨r1, r2, r3⟩ := ih (LcdDirection s d).state (some d) k3
      exact ⟨by rw [← k1]; exact r1, by rw [← k2]; exact r2, r3⟩
    | clear r g b =>
      have hst : Call.after s (Call.clear r g b) = s := after_other s _ (fun d => by simp)
      show (runCalls (Call.after s (Call.clear r g b)) cs).xStart = s.xStart ∧
        (runCalls (Call.after s (Call.clear r g b)) cs).yStart = s.yStart ∧
        ((runCalls (Call.after s (Call.clear r g b)) cs).width,
          (runCalls (Call.after s (Call.clear r g b)) cs).height) = sizeFor (lastSelector cur cs)
      rw [hst]
      exact ih s cur h
    | _ => exact ih s cur h

/-- C18: in the state reached from construction by any sequence of driver and
canvas calls, `xStart` and `yStart` are what construction left; `(width, height)`
is `(320,480)` if the most recent `LcdDirection` selector is `0 mod 4` or the
client never called `LcdDirection`, and `(480,320)` otherwise; every call other
than `LcdDirection` leaves all the driver's fields as they were. -/
theorem driver_state_invariant (calls : List Call) :
    (runCalls NewST7789.state calls).xStart = NewST7789.state.xStart ∧
    (runCalls NewST7789.state calls).yStart = NewST7789.state.yStart ∧
    ((runCalls NewST7789.state calls).width, (runCalls NewST7789.state calls).height)
      = sizeFor (lastSelector none calls) ∧
    (NewST7789.state.width, NewST7789.state.height) = (320, 480) ∧
    sizeFor none = (320, 480) ∧
    (∀ d : Byte, sizeFor (some d) = if d.val % 4 = 0 then (320, 480) else (480, 320)) ∧
    ∀ (s : ILI9488) (c : Call), (∀ d, c ≠ Call.lcdDirection d) → c.after s = s := by
  have h0 : (NewST7789.state.width, NewST7789.state.height) = sizeFor none := by decide
  obtain ⟨a, b, c⟩ := runCalls_invariant calls NewST7789.state none h0
  exact ⟨a, b, c, by decide, rfl, fun _ => rfl, after_other⟩

theorem driver_state_invariant_witness :
    (∀ d, Call.setWindow 0 0 319 479 ≠ Call.lcdDirection d) ∧
    (Call.setWindow 0 0 319 479).after { width := 480, height := 320, xStart := 0, yStart := 0 }
      = { width := 480, height := 320, xStart := 0, yStart := 0 } :=
  ⟨fun d => by simp,
    (driver_state_invariant []).2.2.2.2.2.2 { width := 480, height := 320, xStart := 0, yStart := 0 }
      (Call.setWindow 0 0 319 479) (fun d => by simp)⟩

/-! ## Bus discipline -/

set_option maxRecDepth 100000 in
theorem init_trace_const (s : ILI9488) :
    (init s).trace = (init { width := 0, height := 0, xStart := 0, yStart := 0 }).trace := by
  rfl

set_option maxRecDepth 100000 in
theorem init_disciplined (s : ILI9488) : Disciplined (init s).trace := by
  rw [init_trace_const]
  decide

theorem busRun_append (t1 t2 : List Event) :
    ∀ ph, busRun ph (t1 ++ t2) = (busRun ph t1).bind fun q => busRun q t2 := by
  induction t1 with
  | nil => intro ph; rfl
  | cons e t ih =>
    intro ph
    show (busStep ph e).bind (fun ph2 => busRun ph2 (t ++ t2)) = _
    cases h : busStep ph e with
    | none => simp [busRun, h]
    | some q => simp [busRun, h, ih q]

theorem Disciplined.append {t1 t2 : List Event} (h1 : Disciplined t1) (h2 : Disciplined t2) :
    Disciplined (t1 ++ t2) := by
  unfold Disciplined at *
  rw [busRun_append, h1]
  exact h2

theorem ExchangeData_disciplined (s : ILI9488) (isData : Bool) (data : List Byte) :
    Disciplined (ExchangeData s isData data).trace := by
  cases isData <;> rfl

theorem run_sent (t : List Event) (h : busRun BusPhase.sent t = some BusPhase.idle) :
    ∃ rest, t = Event.high Line.cs :: rest ∧ busRun BusPhase.idle rest = some BusPhase.idle := by
  cases t with
  | nil => simp [busRun] at h
  | cons e rest =>
    cases e with
    | high l => cases l <;> simp_all [busRun, busStep]
    | _ => simp [busRun, busStep] at h

theorem run_selected (t : List Event) (h : busRun BusPhase.selected t = some BusPhase.idle) :
    ∃ p rest, t = Event.spiTransmit p :: rest ∧
      busRun BusPhase.sent rest = some BusPhase.idle := by
  cases t with
  | nil => simp [busRun] at h
  | cons e rest =>
    cases e with
    | spiTransmit p => exact ⟨p, rest, rfl, by simpa [busRun, busStep] using h⟩
    | _ => simp [busRun, busStep] at h

theorem run_asserted (t : List Event) (h : busRun BusPhase.asserted t = some BusPhase.idle) :
    ∃ w rest, t = w :: rest ∧ (w = Event.high Line.dc ∨ w = Event.low Line.dc) ∧
      busRun BusPhase.selected rest = some BusPhase.idle := by
  cases t with
  | nil => simp [busRun] at h
  | cons e rest =>
    cases e with
    | high l =>
      cases l with
      | dc => exact ⟨_, rest, rfl, Or.inl rfl, by simpa [busRun, busStep] using h⟩
      | _ => simp [busRun, busStep] at h
    | low l =>
      cases l with
      | dc => exact ⟨_, rest, rfl, Or.inr rfl, by simpa [busRun, busStep] using h⟩
      | _ => simp [busRun, busStep] at h
    | _ => simp [busRun, busStep] at h

theorem run_idle (t : List Event) (h : busRun BusPhase.idle t = some BusPhase.idle) :
    t = [] ∨
    (∃ rest, t = Event.low Line.cs :: rest ∧
      busRun BusPhase.asserted rest = some BusPhase.idle) ∨
    (∃ e rest, t = e :: rest ∧ e.offBus = true ∧
      busRun BusPhase.idle rest = some BusPhase.idle) := by
  cases t with
  | nil => exact Or.inl rfl
  | cons e rest =>
    right
    cases e with
    | low l =>
      cases l with
      | cs => left; exact ⟨rest, rfl, by simpa [busRun, busStep] using h⟩
      | rst => right; exact ⟨_, rest, rfl, rfl, by simpa [busRun, busStep, Event.offBus] using h⟩
      | led => right; exact ⟨_, rest, rfl, rfl, by simpa [busRun, busStep, Event.offBus] using h⟩
      | dc => simp [busRun, busStep, Event.offBus] at h
    | high l =>
      cases l with
      | cs => simp [busRun, busStep, Event.offBus] at h
      | rst => right; exact ⟨_, rest, rfl, rfl, by simpa [busRun, busStep, Event.offBus] using h⟩
      | led => right; exact ⟨_, rest, rfl, rfl, by simpa [busRun, busStep, Event.offBus] using h⟩
      | dc => simp [busRun, busStep, Event.offBus] at h
    | spiTransmit p => simp [busRun, busStep, Event.offBus] at h
    | sleep n => right; exact ⟨_, rest, rfl, rfl, by simpa [busRun, busStep, Event.offBus] using h⟩
    | setOutput l =>
      right; exact ⟨_, rest, rfl, rfl, by simpa [busRun, busStep, Event.offBus] using h⟩
    | spiSpeed n => right; exact ⟨_, rest, rfl, rfl, by simpa [busRun, busStep, Event.offBus] using h⟩
    | setSpiMode0 =>
      right; exact ⟨_, rest, rfl, rfl, by simpa [busRun, busStep, Event.offBus] using h⟩

/-- A disciplined trace starts with an off-bus event or with a whole frame. -/
theorem Disciplined.head {t : List Event} (h : Disciplined t) :
    t = [] ∨
    (∃ e rest, t = e :: rest ∧ e.offBus = true ∧ Disciplined rest) ∨
    (∃ w p rest, t = Event.low Line.cs :: w :: Event.spiTransmit p :: Event.high Line.cs :: rest ∧
      (w = Event.high Line.dc ∨ w = Event.low Line.dc) ∧ Disciplined rest) := by
  rcases run_idle t h with h0 | ⟨r1, rfl, h1⟩ | ⟨e, rest, rfl, he, hr⟩
  · exact Or.inl h0
  · obtain ⟨w, r2, rfl, hw, h2⟩ := run_asserted r1 h1
    obtain ⟨p, r3, rfl, h3⟩ := run_selected r2 h2
    obtain ⟨r4, rfl, h4⟩ := run_sent r3 h3
    exact Or.inr (Or.inr ⟨w, p, r4, rfl, hw, h4⟩)
  · exact Or.inr (Or.inl ⟨e, rest, rfl, he, hr⟩)

theorem Disciplined.framed_aux : ∀ (n : Nat) (t : List Event), t.length ≤ n →
    Disciplined t → TransmitFramed t := by
  intro n
  induction n with
  | zero =>
    intro t hn _ i p hi
    have : t = [] := List.length_eq_zero.mp (by omega)
    subst this
    simp at hi
  | succ n ih =>
    intro t hn hd i p hi
    rcases hd.head with h0 | ⟨e, rest, rfl, he, hr⟩ | ⟨w, q, rest, rfl, hw, hr⟩
    · subst h0; simp at hi
    · cases i with
      | zero =>
        simp at hi
        subst hi
        simp [Event.offBus] at he
      | succ k =>
        simp only [List.getElem?_cons_succ] at hi
        obtain ⟨j, rfl, a, b, c⟩ := ih rest (by simp at hn; omega) hr k p hi
        exact ⟨j + 1, rfl, by simpa using a, by simpa using b, by simpa using c⟩
    · match i, hi with
      | 0, hi => simp at hi
      | 1, hi =>
        simp at hi
        rcases hw with rfl | rfl <;> simp at hi
      | 2, _ =>
        refine ⟨0, rfl, rfl, ?_, by simp⟩
        rcases hw with rfl | rfl
        · exact Or.inl rfl
        · exact Or.inr rfl
      | 3, hi => simp at hi
      | k + 4, hi =>
        simp only [List.getElem?_cons_succ] at hi
        obtain ⟨j, rfl, a, b, c⟩ := ih rest (by simp at hn; omega) hr k p hi
        exact ⟨j + 4, rfl, by simpa using a, by simpa using b, by simpa using c⟩

/-- In a disciplined trace every transmission sits in a frame of its own. -/
theorem Disciplined.framed {t : List Event} (h : Disciplined t) : TransmitFramed t :=
  Disciplined.framed_aux t.length t (le_refl _) h

theorem BusOk.of {t : List Event} (h : Disciplined t)
    (hl : t.getLast? = some (Event.high Line.cs)) : BusOk t :=
  ⟨h, h.framed, hl⟩

theorem ExchangeData_busOk (s : ILI9488) (isData : Bool) (data : List Byte) :
    BusOk (ExchangeData s isData data).trace :=
  BusOk.of (ExchangeData_disciplined s isData data) rfl

theorem SetWindow_busOk (s : ILI9488) (x0 y0 x1 y1 : Int) :
    BusOk (SetWindow s x0 y0 x1 y1).trace :=
  BusOk.of rfl rfl

theorem FlushBitBuffer_busOk (s : ILI9488) (x0 y0 x1 y1 : Int) (buffer : List Byte) :
    BusOk (FlushBitBuffer s x0 y0 x1 y1 buffer).trace :=
  BusOk.of rfl rfl

theorem LcdDirection_busOk (s : ILI9488) (d : Byte) : BusOk (LcdDirection s d).trace := by
  obtain ⟨c0, c1, c2⟩ := lcdDirection_cases s d
  by_cases h0 : d.val % 4 = 0
  · rw [c0 h0]; exact BusOk.of rfl rfl
  · by_cases h1 : d.val % 4 = 1
    · rw [c1 h1]; exact BusOk.of rfl rfl
    · rw [c2 h0 h1]; exact BusOk.of rfl rfl

/-- The driver's `Clear`, when it completes, is one `FlushBitBuffer` of the full window. -/
theorem Clear_eq_flush (s : ILI9488) (r g b : Byte) (e : Effect Unit)
    (h : Clear s r g b = some e) :
    ∃ buf, e = FlushBitBuffer s 0 0 (wrapInt (s.width - 1)) (wrapInt (s.height - 1)) buf := by
  unfold Clear at h
  cases hm : makeBytes (wrapInt (wrapInt (s.width * s.height) * 3)) with
  | none => simp [hm] at h
  | some buf =>
    simp only [hm, Option.some_bind, Option.map_eq_some'] at h
    obtain ⟨buf2, _, rfl⟩ := h
    exact ⟨buf2, rfl⟩

set_option maxRecDepth 100000 in
theorem init_busOk (s : ILI9488) : BusOk (init s).trace := by
  refine BusOk.of (init_disciplined s) ?_
  rw [init_trace_const]
  decide

/-- C13: `ExchangeData(isData, payload)` emits exactly chip-select low, the
data/command line high if `isData` else low, one `SpiTransmit(payload)`,
chip-select high.  The trace of `Command`, `SendData`, `SetWindow`,
`FlushBitBuffer`, `LcdDirection`, the driver's `Clear` (when it completes), `init`,
`Flush` and `FlushDirectly` satisfies `BusOk`: it is accepted by the framing
automaton (each chip-select assertion holds exactly one write of the
data/command line and then exactly one transmission, so never a command and a
data transmission together); every `SpiTransmit` has chip-select low two events
before it, the line write right before it and chip-select high right after it;
and the last event sets chip-select high. -/
theorem bus_transactions :
    (∀ (s : ILI9488) (isData : Bool) (payload : List Byte),
      (ExchangeData s isData payload).trace =
        [Event.low Line.cs, if isData then Event.high Line.dc else Event.low Line.dc,
         Event.spiTransmit payload, Event.high Line.cs]) ∧
    (∀ (s : ILI9488) (c : Byte), BusOk (Command s c).trace) ∧
    (∀ (s : ILI9488) (data : List Byte), BusOk (SendData s data).trace) ∧
    (∀ (s : ILI9488) (x0 y0 x1 y1 : Int), BusOk (SetWindow s x0 y0 x1 y1).trace) ∧
    (∀ (s : ILI9488) (x0 y0 x1 y1 : Int) (buffer : List Byte),
      BusOk (FlushBitBuffer s x0 y0 x1 y1 buffer).trace) ∧
    (∀ (s : ILI9488) (d : Byte), BusOk (LcdDirection s d).trace) ∧
    (∀ (s : ILI9488) (r g b : Byte) (e : Effect Unit), Clear s r g b = some e → BusOk e.trace) ∧
    (∀ s : ILI9488, BusOk (init s).trace) ∧
    (∀ (d : Canvas) (s : ILI9488), BusOk (d.Flush s).trace) ∧
    (∀ (d : Canvas) (s : ILI9488) (buffer : List Byte), BusOk (d.FlushDirectly s buffer).trace) := by
  refine ⟨fun _ _ _ => rfl, fun s c => ExchangeData_busOk s false [c],
    fun s data => ExchangeData_busOk s true data, SetWindow_busOk, FlushBitBuffer_busOk,
    LcdDirection_busOk, ?_, init_busOk, fun d s => FlushBitBuffer_busOk s _ _ _ _ _,
    fun d s buffer => FlushBitBuffer_busOk s _ _ _ _ _⟩
  intro s r g b e h
  obtain ⟨buf, rfl⟩ := Clear_eq_flush s r g b e h
  exact FlushBitBuffer_busOk s _ _ _ _ _

theorem bus_transactions_witness :
    Clear { width := 2, height := 1, xStart := 0, yStart := 0 } 1 2 3
      = some (FlushBitBuffer { width := 2, height := 1, xStart := 0, yStart := 0 } 0 0 1 0
          [1, 2, 3, 1, 2, 3]) ∧
    BusOk (FlushBitBuffer { width := 2, height := 1, xStart := 0, yStart := 0 } 0 0 1 0
          [1, 2, 3, 1, 2, 3]).trace :=
  ⟨rfl, bus_transactions.2.2.2.2.2.2.1 { width := 2, height := 1, xStart := 0, yStart := 0 }
    1 2 3 _ rfl⟩

/-! ## The driver's whole-screen clear -/

/-- Three consecutive in-range stores are one `writeCell`. -/
theorem store3_eq (buf : List Byte) (n : Nat) (r g b : Byte) (h : n + 2 < buf.length)
    (hl : (buf.length : Int) < 9223372036854775808) :
    ((storeByte buf (n : Int) r).bind fun buf =>
      (storeByte buf (wrapInt ((n : Int) + 1)) g).bind fun buf =>
      storeByte buf (wrapInt ((n : Int) + 2)) b) = some (writeCell buf n r g b) := by
  have e1 : wrapInt ((n : Int) + 1) = ((n + 1 : Nat) : Int) := by
    rw [wrapInt_of_range _ (by omega) (by omega)]; push_cast; rfl
  have e2 : wrapInt ((n : Int) + 2) = ((n + 2 : Nat) : Int) := by
    rw [wrapInt_of_range _ (by omega) (by omega)]; push_cast; rfl
  rw [e1, e2, storeByte_natCast _ _ _ (by omega)]
  simp only [Option.some_bind]
  rw [storeByte_natCast _ _ _ (by simp; omega)]
  simp only [Option.some_bind]
  rw [storeByte_natCast _ _ _ (by simp; omega)]
  rfl

theorem getElem?_writeCell (buf : List Byte) (n : Nat) (r g b : Byte) (h : n + 2 < buf.length) :
    (writeCell buf n r g b)[n]? = some r ∧ (writeCell buf n r g b)[n + 1]? = some g ∧
    (writeCell buf n r g b)[n + 2]? = some b := by
  have h0 : n < buf.length := by omega
  have h1 : n + 1 < buf.length := by omega
  refine ⟨?_, ?_, ?_⟩ <;> simp [writeCell, List.getElem?_set, h, h0, h1]

/-- The fill loop of the driver's `Clear`, started at cell `j` for `n` rounds. -/
theorem fill_loop (r g b : Byte) : ∀ (n j : Nat) (buf : List Byte),
    3 * (j + n) ≤ buf.length → (buf.length : Int) < 9223372036854775808 →
    ∃ buf2, forCountBy 3 (fun i buf =>
        (storeByte buf i r).bind fun buf =>
        (storeByte buf (wrapInt (i + 1)) g).bind fun buf =>
        storeByte buf (wrapInt (i + 2)) b) n ((3 * j : Nat) : Int) buf = some buf2 ∧
      buf2.length = buf.length ∧
      (∀ k, j ≤ k → k < j + n →
        buf2[3 * k]? = some r ∧ buf2[3 * k + 1]? = some g ∧ buf2[3 * k + 2]? = some b) ∧
      (∀ i, i < 3 * j → buf2[i]? = buf[i]?) := by
  intro n
  induction n with
  | zero =>
    intro j buf _ _
    exact ⟨buf, rfl, rfl, fun k h1 h2 => by omega, fun _ _ => rfl⟩
  | succ n ih =>
    intro j buf hlen hint
    have hstep := store3_eq buf (3 * j) r g b (by omega) hint
    have hidx : ((3 * j : Nat) : Int) + 3 = ((3 * (j + 1) : Nat) : Int) := by
      push_cast; ring
    obtain ⟨buf2, h1, h2, h3, h4⟩ := ih (j + 1) (writeCell buf (3 * j) r g b)
      (by rw [length_writeCell]; omega) (by rw [length_writeCell]; exact hint)
    refine ⟨buf2, ?_, ?_, ?_, ?_⟩
    · simp only [forCountBy, hstep, Option.some_bind, hidx]
      exact h1
    · rw [h2, length_writeCell]
    · intro k hk1 hk2
      by_cases hk : k = j
      · subst hk
        obtain ⟨w0, w1, w2⟩ := getElem?_writeCell buf (3 * k) r g b (by omega)
        rw [h4 _ (by omega), h4 _ (by omega), h4 _ (by omega)]
        exact ⟨w0, w1, w2⟩
      · exact h3 k (by omega) (by omega)
    · intro i hi
      rw [h4 i (by omega)]
      exact getElem?_writeCell_other _ _ _ _ _ _ (by omega) (by omega) (by omega)

/-- C14: for every driver state with width `w ≥ 0` and height `h ≥ 0` (Go `int`s
with `w*h*3` a Go `int`) and all bytes `r g b`, the driver's `Clear(r,g,b)`
completes and emits exactly what `FlushBitBuffer(0, 0, w-1, h-1, buf)` emits,
where `buf` has length `w*h*3` and `buf[3k] = r`, `buf[3k+1] = g`, `buf[3k+2] = b`
for every `0 ≤ k < w*h`; the driver's fields are unchanged. -/
theorem driver_clear_emits (s : ILI9488) (r g b : Byte)
    (hw : 0 ≤ s.width) (hh : 0 ≤ s.height)
    (hwi : s.width < 9223372036854775808) (hhi : s.height < 9223372036854775808)
    (hlen : s.width * s.height * 3 < 9223372036854775808) :
    ∃ e buf, Clear s r g b = some e ∧
      e.trace = (FlushBitBuffer s 0 0 (s.width - 1) (s.height - 1) buf).trace ∧
      (buf.length : Int) = s.width * s.height * 3 ∧
      (∀ k : Nat, (k : Int) < s.width * s.height →
        buf[3 * k]? = some r ∧ buf[3 * k + 1]? = some g ∧ buf[3 * k + 2]? = some b) ∧
      e.state = s := by
  have hp : 0 ≤ s.width * s.height := mul_nonneg hw hh
  have e1 : wrapInt (s.width * s.height) = s.width * s.height :=
    wrapInt_of_range _ (by omega) (by omega)
  have e2 : wrapInt (s.width * s.height * 3) = s.width * s.height * 3 :=
    wrapInt_of_range _ (by omega) (by omega)
  have e3 : wrapInt (s.width - 1) = s.width - 1 := wrapInt_of_range _ (by omega) (by omega)
  have e4 : wrapInt (s.height - 1) = s.height - 1 := wrapInt_of_range _ (by omega) (by omega)
  have hn : (0 : Int) ≤ s.width * s.height * 3 := by omega
  have hmk : makeBytes (wrapInt (wrapInt (s.width * s.height) * 3))
      = some (List.replicate (s.width * s.height * 3).toNat 0) := by
    simp only [makeBytes, e1, e2, hn, if_true]
  have hl0 : (List.replicate (s.width * s.height * 3).toNat (0 : Byte)).length
      = 3 * (0 + (s.width * s.height).toNat) := by
    simp only [List.length_replicate]; omega
  have hcount : ((List.replicate (s.width * s.height * 3).toNat (0 : Byte)).length + 2) / 3
      = (s.width * s.height).toNat := by
    rw [hl0]; omega
  obtain ⟨buf2, h1, h2, h3, _⟩ := fill_loop r g b (s.width * s.height).toNat 0
    (List.replicate (s.width * s.height * 3).toNat 0) (by rw [hl0])
    (by simp only [List.length_replicate]; omega)
  refine ⟨FlushBitBuffer s 0 0 (s.width - 1) (s.height - 1) buf2, buf2, ?_, rfl, ?_, ?_, rfl⟩
  · unfold Clear
    rw [hmk, Option.some_bind, hcount, e3, e4]
    have h1' : forCountBy 3 (fun i buf =>
        (storeByte buf i r).bind fun buf =>
        (storeByte buf (wrapInt (i + 1)) g).bind fun buf =>
        storeByte buf (wrapInt (i + 2)) b) (s.width * s.height).toNat 0
          (List.replicate (s.width * s.height * 3).toNat 0) = some buf2 := by
      simpa using h1
    rw [h1']
    rfl
  · rw [h2]
    simp only [List.length_replicate]
    omega
  · intro k hk
    exact h3 k (by omega) (by omega)

theorem driver_clear_emits_witness :
    ∃ e buf, Clear { width := 320, height := 480, xStart := 0, yStart := 0 } 255 128 0 = some e ∧
      e.trace = (FlushBitBuffer { width := 320, height := 480, xStart := 0, yStart := 0 }
        0 0 (320 - 1) (480 - 1) buf).trace ∧
      (buf.length : Int) = 320 * 480 * 3 ∧
      (∀ k : Nat, (k : Int) < 320 * 480 →
        buf[3 * k]? = some 255 ∧ buf[3 * k + 1]? = some 128 ∧ buf[3 * k + 2]? = some 0) ∧
      e.state = { width := 320, height := 480, xStart := 0, yStart := 0 } :=
  driver_clear_emits { width := 320, height := 480, xStart := 0, yStart := 0 } 255 128 0
    (by decide) (by decide) (by decide) (by decide) (by decide)

/-! ## Reset and initialisation -/

set_option maxRecDepth 100000 in
/-- C15: the trace of `begin` is: reset line low, sleep 100 ms, reset line high,
sleep 50 ms (no transmission among these four events); then the fixed register
writes of `registerWrites`; then command `0x11`, sleep 120 ms, command `0x29`, and
last command `0x36` followed by the data byte `0x08`.  Construction emits seven
set-up events (no transmission among them) and then the trace of `begin`, and
leaves a driver whose `Size()` is `(320,480)`. -/
theorem begin_trace (s : ILI9488) :
    (begin s).trace =
      [Event.low Line.rst, Event.sleep 100, Event.high Line.rst, Event.sleep 50] ++
      renderWrites registerWrites ++
      frame false [0x11] ++ [Event.sleep 120] ++ frame false [0x29] ++
      frame false [0x36] ++ frame true [0x08] ∧
    NewST7789.trace =
      [Event.setOutput Line.dc, Event.setOutput Line.rst, Event.setOutput Line.led,
       Event.high Line.led, Event.setOutput Line.cs, Event.spiSpeed 40000000,
       Event.setSpiMode0] ++
      (begin { width := 320, height := 480, xStart := 0, yStart := 0 }).trace ∧
    (Size NewST7789.state).result = { X := 320, Y := 480 } := by
  refine ⟨?_, ?_, ?_⟩
  · have h : (begin s).trace
        = (begin { width := 0, height := 0, xStart := 0, yStart := 0 }).trace := rfl
    rw [h]
    decide
  · decide
  · decide

/-! ## The canvas invariant -/

theorem storeByte_length (buf buf2 : List Byte) (i : Int) (v : Byte)
    (h : storeByte buf i v = some buf2) : buf2.length = buf.length := by
  unfold storeByte at h
  split_ifs at h
  simp only [Option.some.injEq] at h
  rw [← h, List.length_set]

/-- A completed `SetRGB`, at any coordinates, keeps the canvas's shape. -/
theorem SetRGB_shape (d d2 : Canvas) (x y : Int) (r g b : Byte)
    (h : d.SetRGB x y r g b = some d2) : SameShape d d2 := by
  unfold Canvas.SetRGB at h
  simp only [Option.bind_eq_some] at h
  obtain ⟨b1, h1, b2, h2, b3, h3, h4⟩ := h
  simp only [Option.some.injEq] at h4
  subst h4
  refine ⟨rfl, rfl, rfl, rfl, rfl, rfl, ?_⟩
  show b3.length = d.Buffer.length
  rw [storeByte_length _ _ _ _ h3, storeByte_length _ _ _ _ h2, storeByte_length _ _ _ _ h1]

/-- A completed `SetColor`, at any coordinates, keeps the canvas's shape. -/
theorem SetColor_shape (d d2 : Canvas) (x y : Int) (c : Color)
    (h : d.SetColor x y c = some d2) : SameShape d d2 := by
  unfold Canvas.SetColor at h
  simp only [Option.bind_eq_some] at h
  obtain ⟨bg, _, h2⟩ := h
  exact SetRGB_shape d d2 x y _ _ _ h2

/-- A counted loop keeps the shape if each round does. -/
theorem forCount_shape (body : Int → Canvas → Option Canvas)
    (hb : ∀ i e e2, body i e = some e2 → SameShape e e2) :
    ∀ (n : Nat) (i : Int) (d d2 : Canvas), forCount body n i d = some d2 → SameShape d d2 := by
  intro n
  induction n with
  | zero =>
    intro i d d2 h
    simp only [forCount, Option.some.injEq] at h
    subst h
    exact SameShape.refl d
  | succ n ih =>
    intro i d d2 h
    simp only [forCount, Option.bind_eq_some] at h
    obtain ⟨d1, h1, h2⟩ := h
    exact (hb i d d1 h1).trans (ih (i + 1) d1 d2 h2)

/-- A completed `Canvas.Clear` keeps the canvas's shape. -/
theorem Clear_shape (d d2 : Canvas) (h : d.Clear = some d2) : SameShape d d2 := by
  unfold Canvas.Clear forUpTo at h
  refine forCount_shape _ ?_ _ _ d d2 h
  intro x e e2 he
  refine forCount_shape _ ?_ _ _ e e2 he
  intro y c c2 hc
  exact SetRGB_shape c c2 x y 0 0 0 hc

/-- A completed `DrawImage`, for any image, keeps the canvas's shape. -/
theorem DrawImage_shape (d d2 : Canvas) (img : Image) (h : d.DrawImage img = some d2) :
    SameShape d d2 := by
  unfold Canvas.DrawImage forUpTo at h
  refine forCount_shape _ ?_ _ _ d d2 h
  intro y e e2 he
  refine forCount_shape _ ?_ _ _ e e2 he
  intro x c c2 hc
  exact SetColor_shape c c2 x y _ hc

/-- Every canvas `GetCanvas` returns, when the size computation does not overflow,
satisfies the invariant. -/
theorem GetCanvas_inv (s : ILI9488) (x0 y0 x1 y1 : Int) (c : Canvas)
    (hx : x0 ≤ x1) (hy : y0 ≤ y1)
    (hsz : (x1 - x0 + 1) * (y1 - y0 + 1) * 3 < 9223372036854775808)
    (hc : (GetCanvas s x0 y0 x1 y1).result = some c) :
    c.X0 = x0 ∧ c.Y0 = y0 ∧ c.X1 = x1 ∧ c.Y1 = y1 ∧ c.Inv := by
  have hW : 1 ≤ x1 - x0 + 1 := by omega
  have hH : 1 ≤ y1 - y0 + 1 := by omega
  have hp : 1 ≤ (x1 - x0 + 1) * (y1 - y0 + 1) := by nlinarith
  have hW2 : x1 - x0 + 1 ≤ (x1 - x0 + 1) * (y1 - y0 + 1) := by nlinarith
  have hH2 : y1 - y0 + 1 ≤ (x1 - x0 + 1) * (y1 - y0 + 1) := by nlinarith
  have e1 : wrapInt (x1 - x0) = x1 - x0 := wrapInt_of_range _ (by omega) (by omega)
  have e2 : wrapInt (x1 - x0 + 1) = x1 - x0 + 1 := wrapInt_of_range _ (by omega) (by omega)
  have e3 : wrapInt (y1 - y0) = y1 - y0 := wrapInt_of_range _ (by omega) (by omega)
  have e4 : wrapInt (y1 - y0 + 1) = y1 - y0 + 1 := wrapInt_of_range _ (by omega) (by omega)
  have e5 : wrapInt ((x1 - x0 + 1) * (y1 - y0 + 1)) = (x1 - x0 + 1) * (y1 - y0 + 1) :=
    wrapInt_of_range _ (by omega) (by omega)
  have e6 : wrapInt ((x1 - x0 + 1) * (y1 - y0 + 1) * 3) = (x1 - x0 + 1) * (y1 - y0 + 1) * 3 :=
    wrapInt_of_range _ (by omega) (by omega)
  have hn : (0 : Int) ≤ (x1 - x0 + 1) * (y1 - y0 + 1) * 3 := by omega
  simp only [GetCanvas, makeBytes, e1, e2, e3, e4, e5, e6, hn, if_true, Option.map_some',
    Option.some.injEq] at hc
  subst hc
  refine ⟨rfl, rfl, rfl, rfl, rfl, rfl, ?_, ?_⟩
  · unfold Canvas.Sized
    simp only [List.length_replicate]
    omega
  · unfold Canvas.LenIsInt
    simp only [List.length_replicate]
    omega

/-- The canvas `GetFullScreenCanvas` returns when the size computation does not
overflow. -/
theorem GetFullScreenCanvas_some (s : ILI9488)
    (hw : 0 ≤ s.width) (hh : 0 ≤ s.height)
    (hwi : s.width < 9223372036854775808) (hhi : s.height < 9223372036854775808)
    (hlen : s.width * s.height * 3 < 9223372036854775808) :
    ∃ c, (GetFullScreenCanvas s).result = some c ∧ c.Inv := by
  have hp : 0 ≤ s.width * s.height := mul_nonneg hw hh
  have e1 : wrapInt (s.width * s.height) = s.width * s.height :=
    wrapInt_of_range _ (by omega) (by omega)
  have e2 : wrapInt (s.width * s.height * 3) = s.width * s.height * 3 :=
    wrapInt_of_range _ (by omega) (by omega)
  have e3 : wrapInt (s.width - 1) = s.width - 1 := wrapInt_of_range _ (by omega) (by omega)
  have e4 : wrapInt (s.height - 1) = s.height - 1 := wrapInt_of_range _ (by omega) (by omega)
  have hn : (0 : Int) ≤ s.width * s.height * 3 := by omega
  refine ⟨{ X0 := 0, Y0 := 0, X1 := s.width - 1, Y1 := s.height - 1,
            Width := s.width, Height := s.height,
            Buffer := List.replicate (s.width * s.height * 3).toNat 0 }, ?_, ?_, ?_, ?_, ?_⟩
  · simp only [GetFullScreenCanvas, makeBytes, e1, e2, e3, e4, hn, if_true, Option.map_some']
  · show s.width = s.width - 1 - 0 + 1
    omega
  · show s.height = s.height - 1 - 0 + 1
    omega
  · unfold Canvas.Sized
    simp only [List.length_replicate]
    omega
  · unfold Canvas.LenIsInt
    simp only [List.length_replicate]
    omega

/-- The full-screen canvas of a driver reached from construction. -/
theorem GetFullScreenCanvas_inv (calls : List Call) :
    ∃ c, (GetFullScreenCanvas (runCalls NewST7789.state calls)).result = some c ∧ c.Inv := by
  have h0 : (NewST7789.state.width, NewST7789.state.height) = sizeFor none := by decide
  obtain ⟨_, _, hsz⟩ := runCalls_invariant calls NewST7789.state none h0
  have hcases : ∀ o : Option Byte, sizeFor o = (320, 480) ∨ sizeFor o = (480, 320) := by
    intro o
    cases o with
    | none => exact Or.inl rfl
    | some d =>
      unfold sizeFor
      by_cases h : d.val % 4 = 0
      · simp [h]
      · simp [h]
  generalize runCalls NewST7789.state calls = s at hsz
  have hwh : (s.width = 320 ∧ s.height = 480) ∨ (s.width = 480 ∧ s.height = 320) := by
    rcases hcases (lastSelector none calls) with h | h
    · rw [h] at hsz; simp only [Prod.mk.injEq] at hsz; exact Or.inl hsz
    · rw [h] at hsz; simp only [Prod.mk.injEq] at hsz; exact Or.inr hsz
  rcases hwh with ⟨hw, hh⟩ | ⟨hw, hh⟩
  · exact GetFullScreenCanvas_some s (by omega) (by omega) (by omega) (by omega)
      (by rw [hw, hh]; decide)
  · exact GetFullScreenCanvas_some s (by omega) (by omega) (by omega) (by omega)
      (by rw [hw, hh]; decide)

theorem SameShape.inv {d d2 : Canvas} (h : SameShape d d2) (hi : d.Inv) : d2.Inv := by
  obtain ⟨i1, i2, i3, i4⟩ := hi
  have hs := h.sized i3
  have hl := h.lenIsInt i4
  obtain ⟨a1, a2, a3, a4, a5, a6, _⟩ := h
  exact ⟨by rw [a5, a1, a3]; exact i1, by rw [a6, a2, a4]; exact i2, hs, hl⟩

/-- C19, as stated, fails: `GetCanvas(0, 0, 2^62-1, 3)` has `x1 ≥ x0`, `y1 ≥ y0`,
and returns a canvas of width `2^62` and height `4` whose buffer is empty, the
byte count `2^62*4*3` having wrapped to `0`; writing its in-range pixel `(0,0)`
panics. -/
theorem getCanvas_overflow :
    (GetCanvas { width := 320, height := 480, xStart := 0, yStart := 0 }
        0 0 4611686018427387903 3).result = some overflowCanvas ∧
    overflowCanvas.Width = overflowCanvas.X1 - overflowCanvas.X0 + 1 ∧
    overflowCanvas.Height = overflowCanvas.Y1 - overflowCanvas.Y0 + 1 ∧
    (overflowCanvas.Buffer.length : Int) ≠ overflowCanvas.Width * overflowCanvas.Height * 3 ∧
    overflowCanvas.SetRGB 0 0 1 2 3 = none ∧
    ¬ (∀ (s : ILI9488) (x0 y0 x1 y1 : Int) (c : Canvas),
        -9223372036854775808 ≤ x0 → x1 < 9223372036854775808 →
        -9223372036854775808 ≤ y0 → y1 < 9223372036854775808 →
        x0 ≤ x1 → y0 ≤ y1 →
        (GetCanvas s x0 y0 x1 y1).result = some c →
        c.Width = c.X1 - c.X0 + 1 ∧ c.Height = c.Y1 - c.Y0 + 1 ∧
          (c.Buffer.length : Int) = c.Width * c.Height * 3) := by
  have h1 : (GetCanvas { width := 320, height := 480, xStart := 0, yStart := 0 }
        0 0 4611686018427387903 3).result = some overflowCanvas := by decide
  refine ⟨h1, by decide, by decide, by decide, by decide, ?_⟩
  intro h
  have h2 := (h _ 0 0 4611686018427387903 3 overflowCanvas (by decide) (by decide) (by decide)
    (by decide) (by decide) (by decide) h1).2.2
  revert h2
  decide

/-- C19, amended: the canvas returned by `GetFullScreenCanvas` in any state
reached from construction, and every canvas returned by `GetCanvas(x0,y0,x1,y1)`
with `x1 ≥ x0`, `y1 ≥ y0` and a byte count `(x1-x0+1)*(y1-y0+1)*3` that does not
overflow `int` (below `2^63` on the 64-bit target modelled here),
satisfy the invariant `Width = X1-X0+1`, `Height = Y1-Y0+1`,
`len(Buffer) = Width*Height*3`.  Every completed `SetRGB`, `SetColor`, `Clear`
and `DrawImage` keeps `Width`, `Height`, the rectangle and the buffer length;
`Flush` and `FlushDirectly` leave the canvas as it was; a canvas of the same
shape keeps the invariant.  Under the invariant, for every in-range pixel the
byte offset is `(y*Width + x)*3`, with `0 ≤ offset` and `offset + 2 < len(Buffer)`,
and `GetRGB` and `SetRGB` complete. -/
theorem canvas_invariant :
    (∀ calls : List Call,
      ∃ c, (GetFullScreenCanvas (runCalls NewST7789.state calls)).result = some c ∧ c.Inv) ∧
    (∀ (s : ILI9488) (x0 y0 x1 y1 : Int), x0 ≤ x1 → y0 ≤ y1 →
      (x1 - x0 + 1) * (y1 - y0 + 1) * 3 < 9223372036854775808 →
      ∀ c, (GetCanvas s x0 y0 x1 y1).result = some c →
        c.X0 = x0 ∧ c.Y0 = y0 ∧ c.X1 = x1 ∧ c.Y1 = y1 ∧ c.Inv) ∧
    (∀ (d d2 : Canvas) (x y : Int) (r g b : Byte),
      d.SetRGB x y r g b = some d2 → SameShape d d2) ∧
    (∀ (d d2 : Canvas) (x y : Int) (c : Color), d.SetColor x y c = some d2 → SameShape d d2) ∧
    (∀ d d2 : Canvas, d.Clear = some d2 → SameShape d d2) ∧
    (∀ (d d2 : Canvas) (img : Image), d.DrawImage img = some d2 → SameShape d d2) ∧
    (∀ (d : Canvas) (s : ILI9488), (d.Flush s).result = d) ∧
    (∀ (d : Canvas) (s : ILI9488) (buffer : List Byte), (d.FlushDirectly s buffer).result = d) ∧
    (∀ d d2 : Canvas, SameShape d d2 → d.Inv → d2.Inv) ∧
    (∀ (d : Canvas) (x y : Int), d.Inv → 0 ≤ x → x < d.Width → 0 ≤ y → y < d.Height →
      d.getBufferBeginIndex x y = (y * d.Width + x) * 3 ∧
      0 ≤ d.getBufferBeginIndex x y ∧
      d.getBufferBeginIndex x y + 2 < d.Buffer.length ∧
      (∃ p, d.GetRGB x y = some p) ∧
      ∀ r g b : Byte, ∃ d2, d.SetRGB x y r g b = some d2) := by
  refine ⟨GetFullScreenCanvas_inv,
    fun s x0 y0 x1 y1 hx hy hsz c hc => GetCanvas_inv s x0 y0 x1 y1 c hx hy hsz hc, SetRGB_shape, SetColor_shape, Clear_shape,
    DrawImage_shape, fun _ _ => rfl, fun _ _ _ => rfl, fun _ _ h hi => h.inv hi, ?_⟩
  intro d x y hi hx0 hx hy0 hy
  obtain ⟨_, _, hs, hl⟩ := hi
  obtain ⟨e0, _, _, hlt⟩ := index_in_range d x y hs hl hx0 hx hy0 hy
  obtain ⟨h1, h2⟩ := pixel_lt d.Width d.Height x y hx0 hx hy0 hy
  refine ⟨?_, ?_, ?_, GetRGB_isSome d x y hs hl hx0 hx hy0 hy, ?_⟩
  · rw [e0]; unfold cellOf; omega
  · rw [e0]; omega
  · rw [e0]; omega
  · intro r g b
    exact ⟨_, SetRGB_eq d x y r g b hs hl hx0 hx hy0 hy⟩

set_option maxRecDepth 100000 in
theorem canvas_invariant_witness :
    (10 : Int) ≤ 19 ∧ (20 : Int) ≤ 29 ∧
    ((19 : Int) - 10 + 1) * (29 - 20 + 1) * 3 < 9223372036854775808 ∧
    (GetCanvas { width := 320, height := 480, xStart := 0, yStart := 0 } 10 20 19 29).result
      = some sampleRegion ∧
    sampleRegion.X0 = 10 ∧ sampleRegion.Y0 = 20 ∧ sampleRegion.X1 = 19 ∧
    sampleRegion.Y1 = 29 ∧ sampleRegion.Inv :=
  ⟨by decide, by decide, by decide, by decide,
    canvas_invariant.2.1 { width := 320, height := 480, xStart := 0, yStart := 0 } 10 20 19 29
      (by decide) (by decide) (by decide) sampleRegion (by decide)⟩

end Lcd
